import Mathlib

/-!
Verification of the matxscript kernel parser / lowering engine
(`src/python/matx/kernel/parser.py`) and the inductor driver
(`src/python/matx/inductor/__init__.py`).

The Python code is shallowly embedded: the mutable visitor object
(`KernelNodeVisitor`) becomes explicit state passing through a
state-plus-error monad `VM`, so that the state at the moment an exception
is raised stays observable (Python exceptions do not roll back mutations).
External collaborators that are not part of the given sources
(`ScopeContext` from `matx.script.context`, `decl_buffer`,
`smart_adapt_to`, the operator registry) are modelled from the
specification; each such definition is marked `Modelled from the spec:`.
-/

/-- Python exception kinds raised by the parser, plus the generic
`Exception` used by the driver wrapper and an `outOfFuel` artifact of the
fuel-based embedding of the visitor's recursion (never raised by the code
itself; all theorems about real behaviour are stated so that `outOfFuel`
cases are vacuous or excluded). -/
inductive Err where
  | notImplementedError (msg : String)
  | syntaxError (msg : String)
  | assertionError (msg : String)
  | attributeError (msg : String)
  | indexError (msg : String)
  | keyError (msg : String)
  | typeError (msg : String)
  | generic (msg : String)
  | outOfFuel
deriving DecidableEq, Repr

/-- `str(e)`: the stringified message of a Python exception, all structure
(the exception class) discarded. -/
def errMsg : Err → String
  | .notImplementedError m => m
  | .syntaxError m => m
  | .assertionError m => m
  | .attributeError m => m
  | .indexError m => m
  | .keyError m => m
  | .typeError m => m
  | .generic m => m
  | .outOfFuel => "out of fuel"

/-- A shape dimension of an array type annotation: a concrete integer, a
named algebraic symbol (`sympy.Symbol`), or a compound algebraic
expression over symbols (e.g. `2*M`), which `is_symbol` does not accept. -/
inductive Dim where
  | concrete (n : Int)
  | sym (name : String)
  | symExpr (txt : String)
deriving DecidableEq, Repr

/-- `is_symbol` from `matx.kernel.symbol`: true exactly on plain named
symbols. -/
def is_symbol : Dim → Bool
  | .sym _ => true
  | _ => false

/-- `str(s)` on a shape dimension. -/
def dimStr : Dim → String
  | .concrete n => toString n
  | .sym n => n
  | .symExpr t => t

/-- An array type annotation such as `int32[M, N]`: element dtype plus an
ordered shape.  `dtype` plays the role of `dtype_str()`. -/
structure KernelType where
  dtype : String
  shape : List Dim
deriving DecidableEq, Repr

/- ### Python-dict helpers
A Python `dict` keyed by strings is represented as an association list in
insertion order; `dict_update` replaces in place or appends, exactly like
`d[k] = v`. -/

def dict_update {β : Type} (m : List (String × β)) (k : String) (v : β) :
    List (String × β) :=
  if m.any (fun p => p.1 = k) then
    m.map (fun p => if p.1 = k then (k, v) else p)
  else
    m ++ [(k, v)]

def dict_lookup {β : Type} (m : List (String × β)) (k : String) : Option β :=
  match m with
  | [] => none
  | p :: rest => if p.1 = k then some p.2 else dict_lookup rest k

def dict_keys {β : Type} (m : List (String × β)) : List String :=
  m.map Prod.fst

/-- `extract_symbol_from_type` (parser.py line 45): collect the symbolic
dimensions of one annotation's shape into a dict keyed by `str(s)`.
The Python builds a `set` first and then a dict comprehension; the fold
below produces the same key set with each distinct name exactly once. -/
def extract_symbol_from_type (t : KernelType) : List (String × Dim) :=
  (t.shape.filter is_symbol).foldl (fun m d => dict_update m (dimStr d) d) []

/-- The `KernelParser.__init__` data: declared parameter names with their
annotations (in declaration order) and the shape-symbol dict accumulated
with `self.symbols.update(shape_symbol)` per argument. -/
def parserSymbols (args : List (String × KernelType)) : List (String × Dim) :=
  args.foldl
    (fun m p =>
      (extract_symbol_from_type p.2).foldl (fun acc q => dict_update acc q.1 q.2) m)
    []

/-- The read-only fields of `KernelParser` consulted by the visitor. -/
structure KernelParserData where
  func_name : String
  args : List (String × KernelType)
  symbols : List (String × Dim)
deriving Repr

/-- `KernelParser.__init__`: record the signature and extract the shape
symbols from the annotations. -/
def mkKernelParserData (name : String) (args : List (String × KernelType)) :
    KernelParserData :=
  ⟨name, args, parserSymbols args⟩

/- ### Lemmas about the dict helpers -/

theorem dict_keys_update_of_mem {β : Type} (m : List (String × β)) (k : String)
    (v : β) (h : m.any (fun p => p.1 = k) = true) :
    dict_keys (dict_update m k v) = dict_keys m := by
  unfold dict_update dict_keys
  rw [if_pos h, List.map_map]
  apply List.map_congr_left
  intro p _
  by_cases hk : p.1 = k
  · simp [Function.comp_apply, hk]
  · simp [Function.comp_apply, hk]

theorem dict_keys_update_of_not_mem {β : Type} (m : List (String × β)) (k : String)
    (v : β) (h : ¬ m.any (fun p => p.1 = k) = true) :
    dict_keys (dict_update m k v) = dict_keys m ++ [k] := by
  unfold dict_update dict_keys
  rw [if_neg h, List.map_append]
  rfl

theorem any_key_iff {β : Type} (m : List (String × β)) (k : String) :
    m.any (fun p => p.1 = k) = true ↔ k ∈ dict_keys m := by
  rw [List.any_eq_true]
  unfold dict_keys
  constructor
  · rintro ⟨p, hp, hpk⟩
    simp only [decide_eq_true_eq] at hpk
    exact List.mem_map.mpr ⟨p, hp, hpk⟩
  · intro hk
    rcases List.mem_map.mp hk with ⟨p, hp, hpk⟩
    exact ⟨p, hp, by simp [hpk]⟩

theorem dict_keys_update {β : Type} (m : List (String × β)) (k : String) (v : β)
    (a : String) :
    a ∈ dict_keys (dict_update m k v) ↔ a ∈ dict_keys m ∨ a = k := by
  by_cases h : m.any (fun p => p.1 = k) = true
  · rw [dict_keys_update_of_mem m k v h]
    have hk : k ∈ dict_keys m := (any_key_iff m k).mp h
    constructor
    · exact Or.inl
    · rintro (ha | rfl)
      · exact ha
      · exact hk
  · rw [dict_keys_update_of_not_mem m k v h, List.mem_append, List.mem_singleton]

theorem dict_keys_update_nodup {β : Type} (m : List (String × β)) (k : String)
    (v : β) (h : (dict_keys m).Nodup) : (dict_keys (dict_update m k v)).Nodup := by
  by_cases hany : m.any (fun p => p.1 = k) = true
  · rw [dict_keys_update_of_mem m k v hany]
    exact h
  · rw [dict_keys_update_of_not_mem m k v hany]
    rw [List.nodup_append]
    refine ⟨h, List.nodup_singleton k, ?_⟩
    intro a ha hb
    simp only [List.mem_singleton] at hb
    subst hb
    exact hany ((any_key_iff m a).mpr ha)

theorem dimfold_keys (l : List Dim) (m : List (String × Dim)) (a : String) :
    a ∈ dict_keys (l.foldl (fun acc d => dict_update acc (dimStr d) d) m) ↔
      a ∈ dict_keys m ∨ ∃ d ∈ l, dimStr d = a := by
  induction l generalizing m with
  | nil => simp
  | cons d rest ih =>
    simp only [List.foldl_cons, ih, dict_keys_update, List.mem_cons]
    constructor
    · rintro ((ha | rfl) | ⟨e, he, rfl⟩)
      · exact Or.inl ha
      · exact Or.inr ⟨d, Or.inl rfl, rfl⟩
      · exact Or.inr ⟨e, Or.inr he, rfl⟩
    · rintro (ha | ⟨e, (rfl | he), rfl⟩)
      · exact Or.inl (Or.inl ha)
      · exact Or.inl (Or.inr rfl)
      · exact Or.inr ⟨e, he, rfl⟩

theorem dimfold_nodup (l : List Dim) (m : List (String × Dim))
    (h : (dict_keys m).Nodup) :
    (dict_keys (l.foldl (fun acc d => dict_update acc (dimStr d) d) m)).Nodup := by
  induction l generalizing m with
  | nil => exact h
  | cons d rest ih =>
    simp only [List.foldl_cons]
    exact ih _ (dict_keys_update_nodup _ _ _ h)

theorem extract_symbol_keys (t : KernelType) (a : String) :
    a ∈ dict_keys (extract_symbol_from_type t) ↔
      ∃ d ∈ t.shape, is_symbol d = true ∧ dimStr d = a := by
  unfold extract_symbol_from_type
  rw [dimfold_keys]
  simp only [dict_keys, List.map_nil, List.not_mem_nil, false_or, List.mem_filter]
  constructor
  · rintro ⟨d, ⟨hd, hsym⟩, rfl⟩
    exact ⟨d, hd, hsym, rfl⟩
  · rintro ⟨d, hd, hsym, rfl⟩
    exact ⟨d, ⟨hd, hsym⟩, rfl⟩

theorem extract_symbol_nodup (t : KernelType) :
    (dict_keys (extract_symbol_from_type t)).Nodup := by
  unfold extract_symbol_from_type
  exact dimfold_nodup _ [] (by simp [dict_keys])

theorem entryfold_keys (l : List (String × Dim)) (m : List (String × Dim))
    (a : String) :
    a ∈ dict_keys (l.foldl (fun acc q => dict_update acc q.1 q.2) m) ↔
      a ∈ dict_keys m ∨ a ∈ dict_keys l := by
  induction l generalizing m with
  | nil => simp [dict_keys]
  | cons q rest ih =>
    rw [List.foldl_cons, ih, dict_keys_update]
    simp only [dict_keys, List.map_cons, List.mem_cons]
    tauto

theorem entryfold_nodup (l : List (String × Dim)) (m : List (String × Dim))
    (h : (dict_keys m).Nodup) :
    (dict_keys (l.foldl (fun acc q => dict_update acc q.1 q.2) m)).Nodup := by
  induction l generalizing m with
  | nil => exact h
  | cons q rest ih =>
    simp only [List.foldl_cons]
    exact ih _ (dict_keys_update_nodup _ _ _ h)

theorem argfold_keys (args : List (String × KernelType))
    (m : List (String × Dim)) (a : String) :
    a ∈ dict_keys (args.foldl
        (fun acc p => (extract_symbol_from_type p.2).foldl
          (fun acc2 q => dict_update acc2 q.1 q.2) acc) m) ↔
      a ∈ dict_keys m ∨ ∃ p ∈ args, ∃ d ∈ p.2.shape, is_symbol d = true ∧ dimStr d = a := by
  induction args generalizing m with
  | nil => simp
  | cons p rest ih =>
    simp only [List.foldl_cons, ih, entryfold_keys, extract_symbol_keys,
      List.mem_cons]
    constructor
    · rintro ((ha | ⟨d, hd, hs, rfl⟩) | ⟨q, hq, d, hd, hs, rfl⟩)
      · exact Or.inl ha
      · exact Or.inr ⟨p, Or.inl rfl, d, hd, hs, rfl⟩
      · exact Or.inr ⟨q, Or.inr hq, d, hd, hs, rfl⟩
    · rintro (ha | ⟨q, (rfl | hq), d, hd, hs, rfl⟩)
      · exact Or.inl (Or.inl ha)
      · exact Or.inl (Or.inr ⟨d, hd, hs, rfl⟩)
      · exact Or.inr ⟨q, hq, d, hd, hs, rfl⟩

theorem argfold_nodup (args : List (String × KernelType))
    (m : List (String × Dim)) (h : (dict_keys m).Nodup) :
    (dict_keys (args.foldl
        (fun acc p => (extract_symbol_from_type p.2).foldl
          (fun acc2 q => dict_update acc2 q.1 q.2) acc) m)).Nodup := by
  induction args generalizing m with
  | nil => exact h
  | cons p rest ih =>
    simp only [List.foldl_cons]
    exact ih _ (entryfold_nodup _ _ h)

theorem extract_symbol_empty (t : KernelType)
    (h : ∀ d ∈ t.shape, is_symbol d = false) :
    extract_symbol_from_type t = [] := by
  unfold extract_symbol_from_type
  have : t.shape.filter is_symbol = [] := by
    rw [List.filter_eq_nil_iff]
    intro d hd
    simp [h d hd]
  rw [this]
  rfl

/- ### Driver error boundary (`inductor.from_source`)

The entire body of the `try` block (context construction, code
generation, file export, FFI module build) is abstracted as the `result`
argument; the definition embeds only the `except BaseException` policy of
`src/python/matx/inductor/__init__.py`:
development mode re-raises the original exception, normal mode raises
`Exception(str(e)) from None`. -/
def from_source {α : Type} (dev_mode : Bool) (result : Except Err α) :
    Except Err α :=
  match result with
  | .ok v => .ok v
  | .error e => if dev_mode then .error e else .error (.generic (errMsg e))

theorem argfold_id (args : List (String × KernelType))
    (h : ∀ p ∈ args, ∀ d ∈ p.2.shape, is_symbol d = false) :
    ∀ m, args.foldl
        (fun acc p => (extract_symbol_from_type p.2).foldl
          (fun acc2 q => dict_update acc2 q.1 q.2) acc) m = m := by
  induction args with
  | nil => intro m; rfl
  | cons p rest ih =>
    intro m
    rw [List.foldl_cons, extract_symbol_empty p.2 (h p (List.mem_cons_self p rest))]
    exact ih (fun q hq => h q (List.mem_cons_of_mem p hq)) m

/- ### Source positions and IR nodes

Source line offsets of individual AST nodes are not modelled: `build_span`
keeps the root span's location (`parser.py` line 136 additionally offsets
by the node's line number, which plays no role in any property here). -/

structure Span where
  file_name : String
  lineno : Int
  func_name : String
  source_code : String
deriving DecidableEq, Repr

/-- `_ir.PrimVar`: a typed primitive variable.  `dtype` is the dtype
string, `"handle"` for `_ir.PrimType("handle")`. -/
structure PrimVar where
  name : String
  dtype : String
  span : Option Span
deriving DecidableEq, Repr

/-- `decl_buffer((10,))` produces a buffer descriptor; only the shape is
relevant here.  Modelled from the spec: a Buffer is a materialized
N-dimensional storage descriptor (`matx.ir.tensor_stmt.decl_buffer` is an
external collaborator). -/
structure Buffer where
  shape : List Int
deriving DecidableEq, Repr

def decl_buffer (shape : List Int) : Buffer := ⟨shape⟩

/-- IR expressions produced by the visitor: `_ir.NoneExpr()`, `_ir.const`,
and the result of `smart_adapt_to` (see below). -/
inductive IRExpr where
  | noneExpr
  | constE (value : Int) (dtype : String)
  | adapted (e : IRExpr) (ty : Option String)
deriving DecidableEq, Repr

/-- Modelled from the spec: `_type_infer(value).dtype`, the element kind
inferred for a numeric literal (external collaborator
`matx.ir.type_inference`). -/
def typeInferDtype (_ : Int) : String := "int64"

/-- Modelled from the spec: `smart_adapt_to` adapts an empty/none
expression to the declared return type (external collaborator
`matx.ir.type_relation`). -/
def smart_adapt_to (e : IRExpr) (ty : Option String) : IRExpr := .adapted e ty

/-- IR statements: `_ir.ReturnStmt` (one- and two-argument forms),
`_ir.SeqStmt`, and the IR emitted by a binary-operator lowering strategy. -/
inductive Stmt where
  | ReturnStmt (value : Option IRExpr) (span : Option Span)
  | SeqStmt (body : List Stmt) (span : Span)
  | opCall (opname : String) (lhs rhs : PrimVar) (lbuf rbuf : Buffer)
      (ret : Option Buffer) (lt rt : KernelType)
deriving Repr

/-- `_ir.Function(params, default_params, body, ret_type, span)`. -/
structure IRFunction where
  params : List PrimVar
  default_params : List IRExpr
  body : Stmt
  ret_type : String
  span : Span
deriving Repr

/-- `ndarrayType_to_ndarray` (parser.py line 51): ignores its argument and
returns a fresh `NDArrayType()`. -/
def ndarrayType_to_ndarray (_ : Buffer) : String := "NDArrayType"

/- ### Python AST

One constructor per `ast` node class that the visitor can receive.  The
kinds with a `visit_<Kind>` method on `KernelNodeVisitor` are
`FunctionDef`, `Constant`, `Name`, `UnaryOp`, `BinOp`, `BoolOp`,
`Compare`, `Call`, `keyword`, `Attribute`, `Assign`, `AnnAssign`,
`AugAssign`, `If`, `For` and `Return`; `Tuple`, `Subscript`, `While` and
`Lambda` are representative kinds without one (dispatch falls back to
`generic_visit`). -/

inductive PyConst where
  | noneConst
  | num (n : Int)
  | strLit (s : String)
deriving DecidableEq, Repr

inductive AstNode where
  | FunctionDef (body : List AstNode)
  | Constant (value : PyConst)
  | Name (id : String)
  | UnaryOp (op : String) (operand : AstNode)
  | BinOp (op : String) (left right : AstNode)
  | BoolOp
  | Compare
  | Call
  | keyword (arg : String) (value : AstNode)
  | Attribute (value : AstNode) (attr : String)
  | Assign (targets : List AstNode) (value : AstNode)
  | AnnAssign
  | AugAssign
  | If (body : List AstNode)
  | For (body : List AstNode)
  | Return (value : Option AstNode)
  | Tuple (elts : List AstNode)
  | Subscript (value : AstNode)
  | While (body : List AstNode)
  | Lambda
deriving Repr

/-- `node.__class__.__name__`. -/
def AstNode.kindName : AstNode → String
  | .FunctionDef _ => "FunctionDef"
  | .Constant _ => "Constant"
  | .Name _ => "Name"
  | .UnaryOp _ _ => "UnaryOp"
  | .BinOp _ _ _ => "BinOp"
  | .BoolOp => "BoolOp"
  | .Compare => "Compare"
  | .Call => "Call"
  | .keyword _ _ => "keyword"
  | .Attribute _ _ => "Attribute"
  | .Assign _ _ => "Assign"
  | .AnnAssign => "AnnAssign"
  | .AugAssign => "AugAssign"
  | .If _ => "If"
  | .For _ => "For"
  | .Return _ => "Return"
  | .Tuple _ => "Tuple"
  | .Subscript _ => "Subscript"
  | .While _ => "While"
  | .Lambda => "Lambda"

/-- Whether `getattr(self, "visit_" + kind, self.generic_visit)` finds a
method: true exactly for the kinds with a `visit_<Kind>` method on
`KernelNodeVisitor`. -/
def hasVisitMethod : AstNode → Bool
  | .FunctionDef _ => true
  | .Constant _ => true
  | .Name _ => true
  | .UnaryOp _ _ => true
  | .BinOp _ _ _ => true
  | .BoolOp => true
  | .Compare => true
  | .Call => true
  | .keyword _ _ => true
  | .Attribute _ _ => true
  | .Assign _ _ => true
  | .AnnAssign => true
  | .AugAssign => true
  | .If _ => true
  | .For _ => true
  | .Return _ => true
  | .Tuple _ => false
  | .Subscript _ => false
  | .While _ => false
  | .Lambda => false

/-- `isinstance(node, ast.Return)` on the optional `last_ast`. -/
def isReturnOpt : Option AstNode → Bool
  | some (.Return _) => true
  | _ => false

/- ### Visitor state

`ScopeContext` lives in `matx.script.context`, outside the given sources.
Modelled from the spec: an ownership stack of lexical frames, each owning
a worklist of not-yet-visited statements and a symbol table; statements
are consumed in source order (the source pre-reverses the list at frame
creation and pops from the back — the worklist below is stored directly
in consumption order, head first); only the innermost frame receives new
bindings.  Innermost frame is the head of `frames`.  `func_params` and
`func_ret_type` are `ScopeContext` attributes used by the visitor;
`func_ret_type` is never assigned by the parser, so it keeps its `None`
default. -/

structure ScopeFrame where
  nodes : List AstNode
  symbols : List (String × PrimVar)
deriving Repr

structure ScopeContext where
  frames : List ScopeFrame
  func_params : List PrimVar
  func_ret_type : Option String
deriving Repr

def ScopeContext.fresh : ScopeContext := ⟨[], [], none⟩

/-- Mutable fields of `KernelNodeVisitor` (`__init__`, parser.py line
122): `self.context = None`, empty handle-variable stack, empty buffer
table, no return buffer. -/
structure VState where
  context : Option ScopeContext
  session_handle_var_ctx : List PrimVar
  buffer_table : List (String × Buffer)
  return_buffer : Option Buffer
deriving Repr

def initVState : VState := ⟨none, [], [], none⟩

/-- Immutable data of the visitor: `self.kernel_p` and the root span /
function name used by `build_span` (`self.custom_ast_node`). -/
structure KernelEnv where
  kp : KernelParserData
  rootSpan : Span
  ctxName : String
deriving Repr

/-- `build_span` (parser.py line 136): a span at the root span's location
carrying the enclosing context's name (the per-node line offset is not
modelled). -/
def build_span (env : KernelEnv) : Span :=
  ⟨env.rootSpan.file_name, env.rootSpan.lineno, env.ctxName,
    env.rootSpan.source_code⟩

/- ### The state-plus-error monad

`VM α` is a function from visitor state to (state, result).  Unlike
`StateT _ (Except _)`, the state at the moment of a raise is kept, as in
Python, where an exception does not undo mutations of `self`. -/

def VM (α : Type) : Type := VState → VState × Except Err α

def pureV {α : Type} (a : α) : VM α := fun s => (s, .ok a)

def throwV {α : Type} (e : Err) : VM α := fun s => (s, .error e)

def bindV {α β : Type} (m : VM α) (k : α → VM β) : VM β := fun s =>
  match m s with
  | (s1, .ok a) => k a s1
  | (s1, .error e) => (s1, .error e)

/-- `self.context` — `AttributeError` when it is still `None`. -/
def getCtx : VM ScopeContext := fun s =>
  match s.context with
  | some c => (s, .ok c)
  | none => (s, .error (.attributeError "NoneType has no attribute"))

def setCtx (c : ScopeContext) : VM Unit := fun s =>
  ({ s with context := some c }, .ok ())

/-- `self.context.node_stack[-1]` — the innermost frame; `IndexError` when
there is none. -/
def innermostFrame : VM ScopeFrame :=
  bindV getCtx fun c =>
    match c.frames with
    | f :: _ => pureV f
    | [] => throwV (.indexError "list index out of range")

/-- Replace the innermost frame (used for worklist consumption). -/
def setInnermostFrame (f : ScopeFrame) : VM Unit :=
  bindV getCtx fun c =>
    match c.frames with
    | _ :: t => setCtx { c with frames := f :: t }
    | [] => throwV (.indexError "list index out of range")

/-- `self.context.new_scope(nodes=...)`: push a fresh frame owning the
given worklist and an empty symbol table. -/
def new_scope (nodes : List AstNode) : VM Unit :=
  bindV getCtx fun c =>
    setCtx { c with frames := ⟨nodes, []⟩ :: c.frames }

/-- `self.context.pop_scope()`: drop the innermost frame. -/
def pop_scope : VM Unit :=
  bindV getCtx fun c =>
    match c.frames with
    | _ :: t => setCtx { c with frames := t }
    | [] => throwV (.indexError "pop from empty list")

/-- `self.context.update_symbol(name, var)`: bind in the innermost frame. -/
def update_symbol (name : String) (v : PrimVar) : VM Unit :=
  bindV getCtx fun c =>
    match c.frames with
    | f :: t => setCtx { c with frames := ⟨f.nodes, dict_update f.symbols name v⟩ :: t }
    | [] => throwV (.indexError "list index out of range")

/-- `self.context.func_params.append(v)`. -/
def func_params_append (v : PrimVar) : VM Unit :=
  bindV getCtx fun c => setCtx { c with func_params := c.func_params ++ [v] }

/-- `self.context.func_params[-1]`. -/
def func_params_last : VM PrimVar :=
  bindV getCtx fun c =>
    match c.func_params.getLast? with
    | some v => pureV v
    | none => throwV (.indexError "list index out of range")

/-- `self.context.symbols[0][key]` (used by `visit_BinOp`): index 0 of the
symbol-table list is the outermost frame under the storage order above. -/
def symbols0_get (key : String) : VM PrimVar :=
  bindV getCtx fun c =>
    match c.frames.getLast? with
    | some f =>
      match dict_lookup f.symbols key with
      | some v => pureV v
      | none => throwV (.keyError key)
    | none => throwV (.indexError "list index out of range")

/-- `self.push_handle_var(v)` (parser.py line 184). -/
def push_handle_var (v : PrimVar) : VM Unit := fun s =>
  ({ s with session_handle_var_ctx := s.session_handle_var_ctx ++ [v] }, .ok ())

/-- `self.pop_handle_var()` (parser.py line 187): `list.pop()` removes the
last element, `IndexError` on an empty stack. -/
def pop_handle_var : VM Unit := fun s =>
  match s.session_handle_var_ctx.getLast? with
  | some _ =>
    ({ s with session_handle_var_ctx := s.session_handle_var_ctx.dropLast }, .ok ())
  | none => (s, .error (.indexError "pop from empty list"))

/-- `self.buffer_table[name] = b`. -/
def set_buffer (name : String) (b : Buffer) : VM Unit := fun s =>
  ({ s with buffer_table := dict_update s.buffer_table name b }, .ok ())

/-- `self.buffer_table[key]` — `KeyError` when absent. -/
def buffer_table_get (key : String) : VM Buffer := fun s =>
  match dict_lookup s.buffer_table key with
  | some b => (s, .ok b)
  | none => (s, .error (.keyError key))

def set_return_buffer (b : Buffer) : VM Unit := fun s =>
  ({ s with return_buffer := some b }, .ok ())

def get_return_buffer : VM (Option Buffer) := fun s => (s, .ok s.return_buffer)

/- ### Visitor results

A `visit_<Kind>` method can return a string (`visit_Name`), an IR
expression (`visit_Constant`), an IR statement (`visit_Return`,
`visit_BinOp`), an IR function (`visit_FunctionDef`), a Python tuple
(`visit_keyword`), a Python list (`visit_Attribute`) or `None` (the stub
visitors). -/
inductive VisitRes where
  | noneRes
  | str (s : String)
  | expr (e : IRExpr)
  | stmt (st : Stmt)
  | func (f : IRFunction)
  | keywordRes (arg : String) (v : VisitRes)
  | pyList (l : List VisitRes)
deriving Repr

/-- `KernelNodeVisitor._get_type` (parser.py line 343): a string operand
that is a declared parameter name resolves to its annotation; everything
else raises `SyntaxError("unable to find the type of", operand)`.  (The
commented-out branches for scope arrays, dtype constants and sympy
symbols are dead code in the source.) -/
def _get_type (kp : KernelParserData) (operand : VisitRes) :
    Except Err KernelType :=
  match operand with
  | .str s =>
    match dict_lookup kp.args s with
    | some t => .ok t
    | none => .error (.syntaxError "unable to find the type of")
  | _ => .error (.syntaxError "unable to find the type of")

/-- `KernelNodeVisitor.generic_visit` (parser.py line 146): any node kind
without a dedicated visitor is a hard failure. -/
def generic_visit (node : AstNode) : VM VisitRes :=
  throwV (.notImplementedError ("This node is not supported now: " ++ node.kindName))

/-- `KernelNodeVisitor.to_seq_stmt` (parser.py line 178). -/
def to_seq_stmt (body : List Stmt) (span : Span) : Stmt :=
  match body with
  | [] => .SeqStmt [] span
  | [st] => st
  | sts => .SeqStmt sts span

/-- Modelled from the spec: `OpRegistry.get_bin_operator`
(`matx.kernel.ops`, not among the given sources) resolves a lowering
strategy for a pair of operand kinds and an operator name; an unknown
operator name is a hard compile error.  The strategy receives the two
resolved operand variables, their buffers, the destination return buffer
and the two semantic types, and produces the IR of the operation. -/
def binOperatorNames : List String :=
  ["Add", "Sub", "Mult", "Div", "FloorDiv", "Mod"]

def OpRegistry_get_bin_operator (lt rt : KernelType) (opname : String) :
    Except Err (PrimVar → PrimVar → Buffer → Buffer → Option Buffer →
      KernelType → KernelType → VisitRes) :=
  if binOperatorNames.contains opname then
    .ok (fun lv rv lb rb ret ltt rtt => .stmt (.opCall opname lv rv lb rb ret ltt rtt))
  else
    .error (.notImplementedError ("unsupported operator " ++ opname))

/-- `self.context.symbols[0][key]` where the key is the raw visit result
(a Python object used as dict key; only strings can be present). -/
def symbols0_get_res (key : VisitRes) : VM PrimVar :=
  match key with
  | .str s => symbols0_get s
  | _ => throwV (.typeError "unhashable dict key")

/-- `self.buffer_table[key]` with a raw visit result as key. -/
def buffer_table_get_res (key : VisitRes) : VM Buffer :=
  match key with
  | .str s => buffer_table_get s
  | _ => throwV (.typeError "unhashable dict key")

/-- `visit_Constant` (parser.py line 233). -/
def visit_Constant (v : PyConst) : VM VisitRes :=
  match v with
  | .noneConst => pureV (.expr .noneExpr)
  | .num n => pureV (.expr (.constE n (typeInferDtype n)))
  | .strLit s => throwV (.notImplementedError ("Unsupported value " ++ s))

/-- `visit_Name` (parser.py line 242): known shape symbols and known
argument names resolve to themselves; any other identifier is passed
through as raw text as well (the final `return node.id`). -/
def visit_Name (env : KernelEnv) (id : String) : VM VisitRes :=
  if (dict_lookup env.kp.symbols id).isSome then pureV (.str id)
  else if (dict_lookup env.kp.args id).isSome then pureV (.str id)
  else pureV (.str id)

/-- `visit_BoolOp` (parser.py line 279). -/
def visit_BoolOp : VM VisitRes :=
  throwV (.notImplementedError "visit_BoolOp is not Implemented")

/-- `visit_Compare` (parser.py line 282). -/
def visit_Compare : VM VisitRes :=
  throwV (.notImplementedError "visit_Compare is not Implemented")

/-- `visit_Call` (parser.py line 285). -/
def visit_Call : VM VisitRes :=
  throwV (.notImplementedError "visit_Call is not Implemented")

/-- `visit_AnnAssign` (parser.py line 317): `pass`, returns `None`. -/
def visit_AnnAssign : VM VisitRes := pureV .noneRes

/-- `visit_AugAssign` (parser.py line 320): `pass`, returns `None`. -/
def visit_AugAssign : VM VisitRes := pureV .noneRes

/-- `visit_If` (parser.py line 325): `pass`, returns `None`. -/
def visit_If (_body : List AstNode) : VM VisitRes := pureV .noneRes

/-- `visit_For` (parser.py line 328): `pass`, returns `None`. -/
def visit_For (_body : List AstNode) : VM VisitRes := pureV .noneRes

/-- The parameter-declaration loop of `visit_FunctionDef` (parser.py
lines 198-202): for each declared argument, bind a fresh `PrimVar` named
after it, append it to `func_params`, and create its buffer with the
hardcoded shape `(10,)`. -/
def addParams (args : List (String × KernelType)) (span : Span) : VM Unit :=
  match args with
  | [] => pureV ()
  | (arg, ty) :: rest =>
    let arg_var : PrimVar := ⟨arg, ty.dtype, some span⟩
    bindV (update_symbol arg arg_var) fun _ =>
    bindV (func_params_append arg_var) fun _ =>
    bindV (set_buffer arg (decl_buffer [10])) fun _ =>
    addParams rest span

/- ### The recursive visitor

The recursion of the Python visitor is not structural (the worklists live
in mutable state), so every recursive definition takes a fuel argument
and every call uses strictly smaller fuel; `outOfFuel` never occurs in a
run given enough fuel. -/

mutual

/-- `KernelNodeVisitor.visit` (parser.py line 152): dispatch on the node
kind name, falling back to `generic_visit`. -/
def visit (env : KernelEnv) : Nat → AstNode → VM VisitRes
  | 0, _ => throwV .outOfFuel
  | fuel + 1, n =>
    match n with
    | .FunctionDef body => visit_FunctionDef env fuel body
    | .Constant v => visit_Constant v
    | .Name id => visit_Name env id
    | .UnaryOp op operand => visit_UnaryOp env fuel op operand
    | .BinOp op l r => visit_BinOp env fuel op l r
    | .BoolOp => visit_BoolOp
    | .Compare => visit_Compare
    | .Call => visit_Call
    | .keyword a v => visit_keyword env fuel a v
    | .Attribute v a => visit_Attribute env fuel v a
    | .Assign ts v => visit_Assign env fuel ts v
    | .AnnAssign => visit_AnnAssign
    | .AugAssign => visit_AugAssign
    | .If b => visit_If b
    | .For b => visit_For b
    | .Return v => visit_Return env fuel v
    | _ => generic_visit n

/-- `visit_FunctionDef` (parser.py line 193): fresh scope context, one
scope frame holding the body worklist, parameter binding, the synthetic
`(10,)` return buffer, the trailing handle parameter pushed onto the
handle-variable stack, body lowering, `_ir.Function` construction, then
the two pops.  There is no try/finally: when `parse_body` raises, the
pops are skipped. -/
def visit_FunctionDef (env : KernelEnv) : Nat → List AstNode → VM VisitRes
  | 0, _ => throwV .outOfFuel
  | fuel + 1, nodeBody =>
    bindV (setCtx ScopeContext.fresh) fun _ =>
    bindV (new_scope nodeBody) fun _ =>
    let span := build_span env
    bindV (addParams env.kp.args span) fun _ =>
    let return_type := decl_buffer [10]
    bindV (set_return_buffer return_type) fun _ =>
    let pointer_var : PrimVar := ⟨"handle_2_71828182846", "handle", none⟩
    bindV (update_symbol "handle_2_71828182846" pointer_var) fun _ =>
    bindV (func_params_append pointer_var) fun _ =>
    bindV func_params_last fun hvar =>
    bindV (push_handle_var hvar) fun _ =>
    bindV (parse_body env fuel true) fun body_stmts =>
    bindV getCtx fun c =>
    let func : IRFunction :=
      ⟨c.func_params, [], to_seq_stmt body_stmts span,
        ndarrayType_to_ndarray return_type, span⟩
    bindV pop_handle_var fun _ =>
    bindV pop_scope fun _ =>
    pureV (.func func)

/-- `visit_UnaryOp` (parser.py line 251): visits the operand, resolves
its type, then falls off the end of the method (returns `None`; the
lowering itself is an unimplemented todo). -/
def visit_UnaryOp (env : KernelEnv) : Nat → String → AstNode → VM VisitRes
  | 0, _, _ => throwV .outOfFuel
  | fuel + 1, _opname, operandN =>
    bindV (visit env fuel operandN) fun operand =>
    match _get_type env.kp operand with
    | .ok _ => pureV .noneRes
    | .error e => throwV e

/-- `visit_BinOp` (parser.py line 261). -/
def visit_BinOp (env : KernelEnv) : Nat → String → AstNode → AstNode → VM VisitRes
  | 0, _, _, _ => throwV .outOfFuel
  | fuel + 1, opname, leftN, rightN =>
    bindV (visit env fuel leftN) fun lhs =>
    bindV (visit env fuel rightN) fun rhs =>
    match _get_type env.kp lhs with
    | .error e => throwV e
    | .ok lhs_t =>
      match _get_type env.kp rhs with
      | .error e => throwV e
      | .ok rhs_t =>
        match OpRegistry_get_bin_operator lhs_t rhs_t opname with
        | .error e => throwV e
        | .ok op_func =>
          bindV (symbols0_get_res lhs) fun lv =>
          bindV (symbols0_get_res rhs) fun rv =>
          bindV (buffer_table_get_res lhs) fun lb =>
          bindV (buffer_table_get_res rhs) fun rb =>
          bindV get_return_buffer fun ret =>
          pureV (op_func lv rv lb rb ret lhs_t rhs_t)

/-- `visit_keyword` (parser.py line 288): returns the Python tuple
`(node.arg, visit(node.value))`. -/
def visit_keyword (env : KernelEnv) : Nat → String → AstNode → VM VisitRes
  | 0, _, _ => throwV .outOfFuel
  | fuel + 1, arg, valueN =>
    bindV (visit env fuel valueN) fun v => pureV (.keywordRes arg v)

/-- `visit_Attribute` (parser.py line 296). -/
def visit_Attribute (env : KernelEnv) : Nat → AstNode → String → VM VisitRes
  | 0, _, _ => throwV .outOfFuel
  | fuel + 1, valueN, attr =>
    bindV (visit env fuel valueN) fun v =>
    match v with
    | .pyList l => pureV (.pyList (l ++ [.str attr]))
    | _ => pureV (.pyList [v, .str attr])

/-- `visit_Assign` (parser.py line 304): asserts a single target, visits
target and value, then raises: `AttributeError` for an attribute target
(the visitor has no `scope_arrays` attribute) and
`NotImplementedError` otherwise. -/
def visit_Assign (env : KernelEnv) : Nat → List AstNode → AstNode → VM VisitRes
  | 0, _, _ => throwV .outOfFuel
  | fuel + 1, targets, valueN =>
    match targets with
    | [target] =>
      bindV (visit env fuel target) fun _id =>
      bindV (visit env fuel valueN) fun _value =>
      match target with
      | .Attribute _ _ =>
        throwV (.attributeError "KernelNodeVisitor object has no attribute scope_arrays")
      | _ => throwV (.notImplementedError "visit_Assign is not Implemented")
    | _ => throwV (.assertionError "assigning multiple var at the same time is not supported")

/-- `visit_Return` (parser.py line 331): a bare return adapts a none
expression to `self.context.func_ret_type`; a valued return visits the
value, rejects a Python-tuple result, and emits `ReturnStmt(None, span)`
(the lowered value is discarded — return-type conversion is a todo in
the source). -/
def visit_Return (env : KernelEnv) : Nat → Option AstNode → VM VisitRes
  | 0, _ => throwV .outOfFuel
  | _fuel + 1, none =>
    bindV getCtx fun c =>
    pureV (.stmt (.ReturnStmt (some (smart_adapt_to .noneExpr c.func_ret_type)) none))
  | fuel + 1, some vnode =>
    let span := build_span env
    bindV (visit env fuel vnode) fun rt_expr =>
    match rt_expr with
    | .keywordRes _ _ => throwV (.syntaxError "returning tuple is not support")
    | _ => pureV (.stmt (.ReturnStmt none (some span)))

/-- `parse_body` (parser.py line 160): drain the innermost worklist, then
auto-append a bare return when requested and the body is empty or the
last consumed statement was not a `Return`. -/
def parse_body (env : KernelEnv) : Nat → Bool → VM (List Stmt)
  | 0, _ => throwV .outOfFuel
  | fuel + 1, auto_add_return =>
    bindV (parse_body_loop env fuel [] none) fun br =>
    if auto_add_return && (br.1.isEmpty || !(isReturnOpt br.2)) then
      bindV (visit env fuel (.Return none)) fun r =>
      match r with
      | .stmt st => pureV (br.1 ++ [st])
      | _ => throwV (.typeError "appended visit result is not a stmt")
    else
      pureV br.1

/-- The `while len(self.context.node_stack[-1]) > 0` loop of `parse_body`:
re-reads the current context every iteration, pops the next statement,
visits it, appends statement results, skips `None` results, and raises
on any other result kind. -/
def parse_body_loop (env : KernelEnv) :
    Nat → List Stmt → Option AstNode → VM (List Stmt × Option AstNode)
  | 0, _, _ => throwV .outOfFuel
  | fuel + 1, body, last_ast =>
    bindV innermostFrame fun fr =>
    match fr.nodes with
    | [] => pureV (body, last_ast)
    | nodeA :: rest =>
      bindV (setInnermostFrame ⟨rest, fr.symbols⟩) fun _ =>
      bindV (visit env fuel nodeA) fun res =>
      match res with
      | .noneRes => parse_body_loop env fuel body (some nodeA)
      | .stmt st => parse_body_loop env fuel (body ++ [st]) (some nodeA)
      | _ => throwV (.syntaxError "Every IR node here should be a stmt!")

end

/- ### Concrete demonstration kernel

Two `int32[M, N]` parameters, as in the spec's scenario. -/

def demoSpan : Span := ⟨"kernel.py", 10, "foo", "def foo(a, b): ..."⟩

def demoKT : KernelType := ⟨"int32", [Dim.sym "M", Dim.sym "N"]⟩

def demoKp : KernelParserData :=
  mkKernelParserData "foo" [("a", demoKT), ("b", demoKT)]

def demoEnv : KernelEnv := ⟨demoKp, demoSpan, "foo"⟩

/- ### Result classifiers (used by counterexample statements) -/

/-- Is the outcome an error of `SyntaxError` kind? -/
def isSyntaxErrorRes {α : Type} : Except Err α → Bool
  | .error (.syntaxError _) => true
  | _ => false

/-- Is the outcome an error of `NotImplementedError` kind? -/
def isNotImplementedRes {α : Type} : Except Err α → Bool
  | .error (.notImplementedError _) => true
  | _ => false

/-- Does the current context hold at least one scope frame? -/
def ctxHasFrame (s : VState) : Bool :=
  match s.context with
  | some c => !c.frames.isEmpty
  | none => false

/-- The final statement of a lowered function body (the body is either a
single statement or a `SeqStmt`). -/
def finalStmt : Stmt → Option Stmt
  | .SeqStmt l _ => l.getLast?
  | st => some st

/-- Is this statement a `ReturnStmt` carrying a value? -/
def stmtCarriesValue : Stmt → Bool
  | .ReturnStmt (some _) _ => true
  | _ => false

/-- Is this statement a `ReturnStmt` carrying no value? -/
def stmtIsValuelessReturn : Stmt → Bool
  | .ReturnStmt none _ => true
  | _ => false

/- ### C1 — closed dispatch -/

/-- C1: for every syntax-tree node whose kind has no `visit_<Kind>` method
on `KernelNodeVisitor`, `visit` raises the `NotImplementedError`-kind
failure of `generic_visit` ("This node is not supported now"), leaving
the visitor state untouched; no node kind is silently passed through. -/
theorem visit_unhandled_kind_raises (env : KernelEnv) (fuel : Nat)
    (n : AstNode) (s : VState) (h : hasVisitMethod n = false) :
    visit env (fuel + 1) n s =
      (s, .error (.notImplementedError
        ("This node is not supported now: " ++ n.kindName))) := by
  cases n <;> simp_all [hasVisitMethod, visit, generic_visit, throwV,
    AstNode.kindName]

/-- Witness for C1 at the concrete unhandled kind `While`. -/
theorem visit_unhandled_kind_raises_witness :
    hasVisitMethod (.While []) = false ∧
    visit demoEnv 5 (.While []) initVState =
      (initVState, .error (.notImplementedError
        "This node is not supported now: While")) :=
  ⟨rfl, visit_unhandled_kind_raises demoEnv 4 (.While []) initVState rfl⟩

/- ### C2 — the type resolver's error boundary -/

/-- C2 counterexample: `"M"` is a known shape symbol of the demo kernel,
yet `_get_type` does not return a type bound to it — it raises the
`SyntaxError`-kind condition, because the resolver only consults
`kernel_p.args`. -/
theorem get_type_shape_symbol_cex :
    dict_lookup demoKp.symbols "M" = some (Dim.sym "M") ∧
    _get_type demoKp (.str "M") =
      .error (.syntaxError "unable to find the type of") := ⟨rfl, rfl⟩

/-- C2 (amended): `_get_type` returns a type exactly for string operands
that name a declared parameter; every other operand — including names
that are only shape symbols, unresolved identifiers, and non-string
results — raises the `SyntaxError`-kind condition. -/
theorem get_type_spec (kp : KernelParserData) :
    (∀ r t, _get_type kp r = .ok t ↔
      ∃ n, r = .str n ∧ dict_lookup kp.args n = some t) ∧
    (∀ n, dict_lookup kp.args n = none →
      _get_type kp (.str n) = .error (.syntaxError "unable to find the type of")) := by
  constructor
  · intro r t
    cases r with
    | str n =>
      cases h : dict_lookup kp.args n with
      | none => simp [_get_type, h]
      | some t2 => simp [_get_type, h]
    | noneRes => simp [_get_type]
    | expr e => simp [_get_type]
    | stmt st => simp [_get_type]
    | func f => simp [_get_type]
    | keywordRes a v => simp [_get_type]
    | pyList l => simp [_get_type]
  · intro n h
    simp [_get_type, h]

/-- Witness for C2: resolution succeeds on the declared parameter `a` and
fails on the undeclared name `z`. -/
theorem get_type_spec_witness :
    _get_type demoKp (.str "a") = .ok demoKT ∧
    _get_type demoKp (.str "z") =
      .error (.syntaxError "unable to find the type of") :=
  ⟨((get_type_spec demoKp).1 (.str "a") demoKT).mpr ⟨"a", rfl, rfl⟩,
    (get_type_spec demoKp).2 "z" rfl⟩

/- ### C4 — shape-symbol extraction -/

/-- C4: extraction over the declared parameter types yields a mapping
keyed by symbol name whose keys are duplicate-free (each distinct
symbolic dimension appears exactly once however many parameters repeat
it), whose keys are exactly the names of symbolic dimensions occurring in
some parameter shape, and which is empty when no parameter shape has a
symbolic dimension.  Extraction is a total function — it never fails. -/
theorem shape_symbol_extraction_spec (args : List (String × KernelType)) :
    (dict_keys (parserSymbols args)).Nodup ∧
    (∀ name, name ∈ dict_keys (parserSymbols args) ↔
      ∃ p ∈ args, ∃ d ∈ p.2.shape, is_symbol d = true ∧ dimStr d = name) ∧
    ((∀ p ∈ args, ∀ d ∈ p.2.shape, is_symbol d = false) →
      parserSymbols args = []) := by
  refine ⟨?_, ?_, ?_⟩
  · exact argfold_nodup args [] (by simp [dict_keys])
  · intro name
    have h := argfold_keys args [] name
    simpa [dict_keys, parserSymbols] using h
  · intro h
    exact argfold_id args h []

/-- Witness for C4: on the demo kernel (both parameters shaped `[M, N]`),
`"M"` is a key, the keys are duplicate-free, and a symbol-free signature
extracts an empty mapping. -/
theorem shape_symbol_extraction_witness :
    "M" ∈ dict_keys (parserSymbols [("a", demoKT), ("b", demoKT)]) ∧
    (dict_keys (parserSymbols [("a", demoKT), ("b", demoKT)])).Nodup ∧
    parserSymbols [("c", ⟨"int32", [Dim.concrete 4]⟩)] = [] := by
  refine ⟨?_, (shape_symbol_extraction_spec _).1, ?_⟩
  · exact ((shape_symbol_extraction_spec _).2.1 "M").mpr
      ⟨("a", demoKT), by simp, Dim.sym "M", by simp [demoKT], rfl, rfl⟩
  · exact (shape_symbol_extraction_spec _).2.2 (by
      intro p hp d hd
      simp only [List.mem_singleton] at hp
      subst hp
      simp only [List.mem_singleton] at hd
      subst hd
      rfl)

/- ### C6 — tuple returns -/

/-- C6 counterexample: lowering `return (a, b)` raises the
`NotImplementedError`-kind node-not-supported failure (there is no
`visit_Tuple`), not the `SyntaxError`-kind "returning tuple" error the
claim describes. -/
theorem tuple_return_error_kind_cex :
    (visit demoEnv 20 (.Return (some (.Tuple [.Name "a", .Name "b"])))
        initVState).2 =
      .error (.notImplementedError "This node is not supported now: Tuple") ∧
    isSyntaxErrorRes
      (visit demoEnv 20 (.Return (some (.Tuple [.Name "a", .Name "b"])))
        initVState).2 = false := ⟨rfl, rfl⟩

/-- C6 (amended): for every tuple-literal return, lowering raises the
`NotImplementedError`-kind closed-dispatch failure on the `Tuple` node
itself (state unchanged); the `SyntaxError` "returning tuple" branch of
`visit_Return` is reached only when the visited value lowers to a
Python-level tuple, which a return value expression never does. -/
theorem tuple_return_raises_unsupported_node (env : KernelEnv) (fuel : Nat)
    (elts : List AstNode) (s : VState) :
    visit env (fuel + 3) (.Return (some (.Tuple elts))) s =
      (s, .error (.notImplementedError "This node is not supported now: Tuple")) := rfl

/- ### C9 — the driver's exception boundary -/

/-- C9: any failure of the pipeline propagates unchanged through
`from_source` in development mode; in normal mode the driver raises a
generic failure carrying only the stringified message, so two failures of
different kinds with the same message become indistinguishable to the
caller.  Successful results pass through untouched in both modes. -/
theorem from_source_error_policy :
    (∀ (α : Type) (dev : Bool) (v : α), from_source dev (.ok v) = .ok v) ∧
    (∀ (α : Type) (e : Err), from_source (α := α) true (.error e) = .error e) ∧
    (∀ (α : Type) (e : Err),
      from_source (α := α) false (.error e) = .error (.generic (errMsg e))) ∧
    (∀ (α : Type) (e1 e2 : Err), errMsg e1 = errMsg e2 →
      from_source (α := α) false (.error e1) =
        from_source (α := α) false (.error e2)) := by
  refine ⟨?_, ?_, ?_, ?_⟩
  · intro α dev v
    rfl
  · intro α e
    rfl
  · intro α e
    rfl
  · intro α e1 e2 h
    simp only [from_source, Bool.false_eq_true, if_false, h]

/-- Witness for C9: a `SyntaxError` and a `NotImplementedError` with the
same message wrap to equal generic failures in normal mode. -/
theorem from_source_error_policy_witness :
    from_source (α := Nat) false (.error (.syntaxError "boom")) =
      from_source (α := Nat) false (.error (.notImplementedError "boom")) :=
  from_source_error_policy.2.2.2 Nat (.syntaxError "boom")
    (.notImplementedError "boom") rfl

/- ### Invariants of the visitor

The key facts proved by mutual induction on fuel: which visitors leave
the state untouched on success, what a successful `visit_FunctionDef`
does to the state, and how `parse_body` consumes the innermost worklist. -/

/-- The trailing synthetic handle parameter (parser.py lines 208-212). -/
def handleVar : PrimVar := ⟨"handle_2_71828182846", "handle", none⟩

/-- The `PrimVar`s created for the declared parameters, in order. -/
def argVars (args : List (String × KernelType)) (span : Span) : List PrimVar :=
  args.map (fun p => ⟨p.1, p.2.dtype, some span⟩)

/-- The full parameter list of the produced IR function. -/
def paramVars (env : KernelEnv) : List PrimVar :=
  argVars env.kp.args (build_span env) ++ [handleVar]

/-- The symbol-table bindings added for the declared parameters. -/
def argSyms (args : List (String × KernelType)) (span : Span)
    (m : List (String × PrimVar)) : List (String × PrimVar) :=
  args.foldl (fun acc p => dict_update acc p.1 ⟨p.1, p.2.dtype, some span⟩) m

/-- The buffer table after declaring every parameter's buffer. -/
def bufferTableAfter (args : List (String × KernelType))
    (bt : List (String × Buffer)) : List (String × Buffer) :=
  args.foldl (fun m p => dict_update m p.1 (decl_buffer [10])) bt

/-- The context shape after `parse_body` has drained the innermost
worklist: same frame stack with the innermost frame's worklist empty. -/
def drainedCtx (c : ScopeContext) (syms : List (String × PrimVar))
    (frTail : List ScopeFrame) : ScopeContext :=
  { c with frames := ⟨[], syms⟩ :: frTail }

/-- A state left behind by a successful nested `visit_FunctionDef`:
handle stack restored, current context replaced by one with no frames. -/
def FunState (s s' : VState) : Prop :=
  s'.session_handle_var_ctx = s.session_handle_var_ctx ∧
  ∃ c', s'.context = some c' ∧ c'.frames = []

/-- Visit results that can accompany a `FunState` outcome. -/
def ResultFunnish : VisitRes → Prop
  | .func _ => True
  | .keywordRes _ _ => True
  | .pyList _ => True
  | .stmt _ => True
  | _ => False

def VisitP (fuel : Nat) : Prop :=
  ∀ env n s s' r, visit env fuel n s = (s', .ok r) →
    s' = s ∨ (FunState s s' ∧ ResultFunnish r)

def FunDefP (fuel : Nat) : Prop :=
  ∀ env nodeBody s s' r, visit_FunctionDef env fuel nodeBody s = (s', .ok r) →
    s'.session_handle_var_ctx = s.session_handle_var_ctx ∧
    s'.context = some ⟨[], paramVars env, none⟩ ∧
    s'.buffer_table = bufferTableAfter env.kp.args s.buffer_table ∧
    s'.return_buffer = some (decl_buffer [10]) ∧
    ∃ bodyStmts, r = .func ⟨paramVars env, [],
      to_seq_stmt bodyStmts (build_span env), "NDArrayType", build_span env⟩

def RetP (fuel : Nat) : Prop :=
  ∀ env v s s' r, visit_Return env fuel v s = (s', .ok r) →
    (s' = s ∨ FunState s s') ∧
    (v = none → ∃ c, s.context = some c ∧ s' = s ∧
      r = .stmt (.ReturnStmt (some (smart_adapt_to .noneExpr c.func_ret_type)) none)) ∧
    (∀ vn, v = some vn → r = .stmt (.ReturnStmt none (some (build_span env))))

def UnP (fuel : Nat) : Prop :=
  ∀ env op o s s' r, visit_UnaryOp env fuel op o s = (s', .ok r) →
    s' = s ∧ r = .noneRes

def BinP (fuel : Nat) : Prop :=
  ∀ env op ln rn s s' r, visit_BinOp env fuel op ln rn s = (s', .ok r) →
    s' = s ∧ ∃ st, r = .stmt st

def KwP (fuel : Nat) : Prop :=
  ∀ env a v s s' r, visit_keyword env fuel a v s = (s', .ok r) →
    (s' = s ∨ FunState s s') ∧ ∃ a2 v2, r = .keywordRes a2 v2

def AttP (fuel : Nat) : Prop :=
  ∀ env v a s s' r, visit_Attribute env fuel v a s = (s', .ok r) →
    (s' = s ∨ FunState s s') ∧ ∃ l, r = .pyList l

def AsgP (fuel : Nat) : Prop :=
  ∀ env ts v s s' r, visit_Assign env fuel ts v s = (s', .ok r) → False

def LoopP (fuel : Nat) : Prop :=
  ∀ env acc last s s' out, parse_body_loop env fuel acc last s = (s', .ok out) →
    ∃ c fr frTail, s.context = some c ∧ c.frames = fr :: frTail ∧
      s' = { s with context := some (drainedCtx c fr.symbols frTail) } ∧
      out.2 = (match fr.nodes.getLast? with | none => last | some a => some a)

def PBP (fuel : Nat) : Prop :=
  ∀ env auto s s' body c fr frTail,
    s.context = some c → c.frames = fr :: frTail →
    parse_body env fuel auto s = (s', .ok body) →
    s' = { s with context := some (drainedCtx c fr.symbols frTail) }

def MasterP (fuel : Nat) : Prop :=
  VisitP fuel ∧ FunDefP fuel ∧ RetP fuel ∧ UnP fuel ∧ BinP fuel ∧
  KwP fuel ∧ AttP fuel ∧ AsgP fuel ∧ LoopP fuel ∧ PBP fuel

/- ### Inversion lemmas for the monad and the primitive operations -/

theorem bindV_ok {α β : Type} {m : VM α} {k : α → VM β} {s s' : VState}
    {b : β} (h : bindV m k s = (s', .ok b)) :
    ∃ s1 a, m s = (s1, .ok a) ∧ k a s1 = (s', .ok b) := by
  unfold bindV at h
  rcases hm : m s with ⟨s1, r⟩
  rw [hm] at h
  cases r with
  | ok a => exact ⟨s1, a, rfl, h⟩
  | error e => simp at h

theorem pureV_ok {α : Type} {a : α} {s s' : VState} {b : α}
    (h : pureV a s = (s', .ok b)) : s' = s ∧ b = a := by
  unfold pureV at h
  simp at h
  exact ⟨h.1.symm, h.2.symm⟩

theorem throwV_not_ok {α : Type} {e : Err} {s s' : VState} {b : α}
    (h : throwV e s = (s', .ok b)) : False := by
  unfold throwV at h
  simp at h

theorem getCtx_ok {s s1 : VState} {c : ScopeContext}
    (h : getCtx s = (s1, .ok c)) : s1 = s ∧ s.context = some c := by
  unfold getCtx at h
  cases hc : s.context with
  | some c2 =>
    rw [hc] at h
    injection h with h1 h2
    injection h2 with h3
    exact ⟨h1.symm, by rw [h3]⟩
  | none =>
    rw [hc] at h
    simp at h

theorem innermostFrame_ok {s s1 : VState} {fr : ScopeFrame}
    (h : innermostFrame s = (s1, .ok fr)) :
    s1 = s ∧ ∃ c frTail, s.context = some c ∧ c.frames = fr :: frTail := by
  unfold innermostFrame at h
  obtain ⟨s2, c, hg, hk⟩ := bindV_ok h
  obtain ⟨rfl, hc⟩ := getCtx_ok hg
  cases hf : c.frames with
  | nil =>
    rw [hf] at hk
    exact absurd hk throwV_not_ok
  | cons f t =>
    rw [hf] at hk
    obtain ⟨rfl, rfl⟩ := pureV_ok hk
    exact ⟨rfl, c, t, hc, hf⟩

theorem symbols0_get_ok {key : String} {s s1 : VState} {v : PrimVar}
    (h : symbols0_get key s = (s1, .ok v)) : s1 = s := by
  unfold symbols0_get at h
  obtain ⟨s2, c, hg, hk⟩ := bindV_ok h
  obtain ⟨hs2, hc⟩ := getCtx_ok hg
  have hgoal : s1 = s2 := by
    cases hf : c.frames.getLast? with
    | none =>
      rw [hf] at hk
      exact absurd hk throwV_not_ok
    | some f =>
      rw [hf] at hk
      have hk2 : (match dict_lookup f.symbols key with
          | some v => pureV v
          | none => throwV (Err.keyError key)) s2 = (s1, Except.ok v) := hk
      cases hl : dict_lookup f.symbols key with
      | none =>
        rw [hl] at hk2
        exact absurd hk2 throwV_not_ok
      | some v2 =>
        rw [hl] at hk2
        exact (pureV_ok hk2).1
  rw [hgoal, hs2]

theorem buffer_table_get_ok {key : String} {s s1 : VState} {b : Buffer}
    (h : buffer_table_get key s = (s1, .ok b)) : s1 = s := by
  unfold buffer_table_get at h
  cases hl : dict_lookup s.buffer_table key with
  | none =>
    rw [hl] at h
    simp at h
  | some b2 =>
    rw [hl] at h
    simp at h
    exact h.1.symm

theorem symbols0_get_res_ok {key : VisitRes} {s s1 : VState} {v : PrimVar}
    (h : symbols0_get_res key s = (s1, .ok v)) : s1 = s := by
  unfold symbols0_get_res at h
  cases key with
  | str s2 => exact symbols0_get_ok h
  | noneRes => exact absurd h throwV_not_ok
  | expr e => exact absurd h throwV_not_ok
  | stmt st => exact absurd h throwV_not_ok
  | func f => exact absurd h throwV_not_ok
  | keywordRes a v2 => exact absurd h throwV_not_ok
  | pyList l => exact absurd h throwV_not_ok

theorem buffer_table_get_res_ok {key : VisitRes} {s s1 : VState} {b : Buffer}
    (h : buffer_table_get_res key s = (s1, .ok b)) : s1 = s := by
  unfold buffer_table_get_res at h
  cases key with
  | str s2 => exact buffer_table_get_ok h
  | noneRes => exact absurd h throwV_not_ok
  | expr e => exact absurd h throwV_not_ok
  | stmt st => exact absurd h throwV_not_ok
  | func f => exact absurd h throwV_not_ok
  | keywordRes a v2 => exact absurd h throwV_not_ok
  | pyList l => exact absurd h throwV_not_ok

theorem get_return_buffer_ok {s s1 : VState} {b : Option Buffer}
    (h : get_return_buffer s = (s1, .ok b)) : s1 = s ∧ b = s.return_buffer := by
  unfold get_return_buffer at h
  simp at h
  exact ⟨h.1.symm, h.2.symm⟩

theorem bindV_step {α β : Type} {m : VM α} {s s1 : VState} {a : α}
    (k : α → VM β) (hm : m s = (s1, .ok a)) : bindV m k s = k a s1 := by
  unfold bindV
  rw [hm]

theorem getCtx_eval {s : VState} {c : ScopeContext} (hc : s.context = some c) :
    getCtx s = (s, .ok c) := by
  unfold getCtx
  rw [hc]

/-- State with the context replaced (shorthand for `self.context = c`). -/
def withCtx (s : VState) (c : ScopeContext) : VState :=
  ⟨some c, s.session_handle_var_ctx, s.buffer_table, s.return_buffer⟩

/-- State with the context and buffer table replaced. -/
def withCtxBT (s : VState) (c : ScopeContext)
    (bt : List (String × Buffer)) : VState :=
  ⟨some c, s.session_handle_var_ctx, bt, s.return_buffer⟩

theorem withCtxBT_context (s : VState) (c : ScopeContext)
    (bt : List (String × Buffer)) : (withCtxBT s c bt).context = some c := rfl

/-- Effect of the parameter-declaration loop: it binds every argument's
variable in the innermost frame, appends the argument variables to
`func_params` in declaration order, and creates one `(10,)`-shaped buffer
per argument. -/
theorem addParams_run (args : List (String × KernelType)) (span : Span)
    (s : VState) (c : ScopeContext) (fr : ScopeFrame)
    (frTail : List ScopeFrame)
    (hc : s.context = some c) (hcf : c.frames = fr :: frTail) :
    addParams args span s =
      (withCtxBT s
        ⟨⟨fr.nodes, argSyms args span fr.symbols⟩ :: frTail,
          c.func_params ++ argVars args span, c.func_ret_type⟩
        (bufferTableAfter args s.buffer_table), .ok ()) := by
  induction args generalizing s c fr frTail with
  | nil =>
    obtain ⟨ctx, hv, bt, rb⟩ := s
    obtain ⟨frames, fps, frt⟩ := c
    simp only at hc hcf
    subst hc
    subst hcf
    obtain ⟨frNodes, frSyms⟩ := fr
    simp [addParams, pureV, argSyms, argVars, bufferTableAfter, withCtxBT]
  | cons p rest ih =>
    obtain ⟨arg, ty⟩ := p
    have hget : getCtx s = (s, .ok c) := getCtx_eval hc
    have h1 : update_symbol arg ⟨arg, ty.dtype, some span⟩ s =
        (withCtx s ⟨⟨fr.nodes,
          dict_update fr.symbols arg ⟨arg, ty.dtype, some span⟩⟩ :: frTail,
          c.func_params, c.func_ret_type⟩, .ok ()) := by
      unfold update_symbol
      rw [bindV_step _ hget, hcf]
      rfl
    have h2 : func_params_append ⟨arg, ty.dtype, some span⟩
        (withCtx s ⟨⟨fr.nodes,
          dict_update fr.symbols arg ⟨arg, ty.dtype, some span⟩⟩ :: frTail,
          c.func_params, c.func_ret_type⟩) =
        (withCtx s ⟨⟨fr.nodes,
          dict_update fr.symbols arg ⟨arg, ty.dtype, some span⟩⟩ :: frTail,
          c.func_params ++ [⟨arg, ty.dtype, some span⟩], c.func_ret_type⟩, .ok ()) := by
      unfold func_params_append
      rw [bindV_step _ (getCtx_eval rfl)]
      rfl
    have h3 : set_buffer arg (decl_buffer [10])
        (withCtx s ⟨⟨fr.nodes,
          dict_update fr.symbols arg ⟨arg, ty.dtype, some span⟩⟩ :: frTail,
          c.func_params ++ [⟨arg, ty.dtype, some span⟩], c.func_ret_type⟩) =
        (withCtxBT s ⟨⟨fr.nodes,
          dict_update fr.symbols arg ⟨arg, ty.dtype, some span⟩⟩ :: frTail,
          c.func_params ++ [⟨arg, ty.dtype, some span⟩], c.func_ret_type⟩
          (dict_update s.buffer_table arg (decl_buffer [10])), .ok ()) := by
      unfold set_buffer
      rfl
    simp only [addParams]
    rw [bindV_step _ h1, bindV_step _ h2, bindV_step _ h3]
    rw [ih _ _ _ _ (withCtxBT_context _ _ _) rfl]
    simp [withCtxBT, argSyms, argVars, bufferTableAfter, List.append_assoc]

theorem getLast?_cons_form {α : Type} (a : α) (l : List α) :
    (a :: l).getLast? =
      (match l.getLast? with | none => some a | some b => some b) := by
  cases l with
  | nil => rfl
  | cons b t =>
    rw [List.getLast?_cons_cons]
    cases h : (b :: t).getLast? with
    | none =>
      exact absurd h (by simp [List.getLast?_eq_none_iff])
    | some x => rfl

/-- `visit_Assign` never succeeds: every control path raises. -/
theorem asgP_succ (f : Nat) : AsgP (f + 1) := by
  intro env ts v s s' r h
  cases ts with
  | nil => exact absurd h throwV_not_ok
  | cons t rest =>
    cases rest with
    | cons t2 r2 => exact absurd h throwV_not_ok
    | nil =>
      obtain ⟨s1, idr, h1, hk⟩ := bindV_ok h
      obtain ⟨s2, vr, h2, hk2⟩ := bindV_ok hk
      cases t <;> exact absurd hk2 throwV_not_ok

theorem kwP_succ (f : Nat) (ihV : VisitP f) : KwP (f + 1) := by
  intro env a v s s' r h
  obtain ⟨s1, rv, hv, hk⟩ := bindV_ok h
  obtain ⟨hs', hr⟩ := pureV_ok hk
  subst hs'
  subst hr
  refine ⟨?_, a, rv, rfl⟩
  rcases ihV env v s _ rv hv with h1 | h1
  · exact Or.inl h1
  · exact Or.inr h1.1

theorem attP_succ (f : Nat) (ihV : VisitP f) : AttP (f + 1) := by
  intro env v a s s' r h
  obtain ⟨s1, rv, hv, hk⟩ := bindV_ok h
  have hstate : s' = s1 ∧ ∃ l, r = .pyList l := by
    cases rv with
    | noneRes =>
      obtain ⟨hs', hr⟩ := pureV_ok hk
      exact ⟨hs', _, hr⟩
    | str s2 =>
      obtain ⟨hs', hr⟩ := pureV_ok hk
      exact ⟨hs', _, hr⟩
    | expr e =>
      obtain ⟨hs', hr⟩ := pureV_ok hk
      exact ⟨hs', _, hr⟩
    | stmt st =>
      obtain ⟨hs', hr⟩ := pureV_ok hk
      exact ⟨hs', _, hr⟩
    | func fn =>
      obtain ⟨hs', hr⟩ := pureV_ok hk
      exact ⟨hs', _, hr⟩
    | keywordRes a2 v2 =>
      obtain ⟨hs', hr⟩ := pureV_ok hk
      exact ⟨hs', _, hr⟩
    | pyList l =>
      obtain ⟨hs', hr⟩ := pureV_ok hk
      exact ⟨hs', _, hr⟩
  obtain ⟨hs', hl⟩ := hstate
  subst hs'
  refine ⟨?_, hl⟩
  rcases ihV env v s _ rv hv with h1 | h1
  · exact Or.inl h1
  · exact Or.inr h1.1

theorem unP_succ (f : Nat) (ihV : VisitP f) : UnP (f + 1) := by
  intro env op o s s' r h
  obtain ⟨s1, rv, hv, hk⟩ := bindV_ok h
  cases hg : _get_type env.kp rv with
  | error e =>
    rw [hg] at hk
    exact absurd hk throwV_not_ok
  | ok t =>
    rw [hg] at hk
    obtain ⟨hs', hr⟩ := pureV_ok hk
    subst hs'
    subst hr
    obtain ⟨n2, hrv, _⟩ := ((get_type_spec env.kp).1 rv t).mp hg
    subst hrv
    rcases ihV env o s _ (.str n2) hv with h1 | ⟨_, hfn⟩
    · exact ⟨h1, rfl⟩
    · exact hfn.elim

theorem retP_succ (f : Nat) (ihV : VisitP f) : RetP (f + 1) := by
  intro env v s s' r h
  cases v with
  | none =>
    obtain ⟨s1, c, hg, hk⟩ := bindV_ok h
    obtain ⟨hs1, hc⟩ := getCtx_ok hg
    obtain ⟨hs', hr⟩ := pureV_ok hk
    subst hs1
    subst hs'
    subst hr
    exact ⟨Or.inl rfl, fun _ => ⟨c, hc, rfl, rfl⟩, fun vn hv => Option.noConfusion hv⟩
  | some vn =>
    obtain ⟨s1, rv, hv, hk⟩ := bindV_ok h
    have hV := ihV env vn s s1 rv hv
    have hstate : s' = s1 ∧ r = .stmt (.ReturnStmt none (some (build_span env))) := by
      cases rv with
      | keywordRes a2 v2 => exact absurd hk throwV_not_ok
      | noneRes => exact pureV_ok hk
      | str s2 => exact pureV_ok hk
      | expr e => exact pureV_ok hk
      | stmt st => exact pureV_ok hk
      | func fn => exact pureV_ok hk
      | pyList l => exact pureV_ok hk
    obtain ⟨hs', hr⟩ := hstate
    subst hs'
    subst hr
    refine ⟨?_, fun hveq => Option.noConfusion hveq, fun vn2 _ => rfl⟩
    rcases hV with h1 | h1
    · exact Or.inl h1
    · exact Or.inr h1.1

theorem binP_succ (f : Nat) (ihV : VisitP f) : BinP (f + 1) := by
  intro env op ln rn s s' r h
  obtain ⟨s1, lres, hvl, hk⟩ := bindV_ok h
  obtain ⟨s2, rres, hvr, hk2⟩ := bindV_ok hk
  cases hgl : _get_type env.kp lres with
  | error e =>
    simp only [hgl] at hk2
    exact absurd hk2 throwV_not_ok
  | ok lt2 =>
    simp only [hgl] at hk2
    cases hgr : _get_type env.kp rres with
    | error e =>
      simp only [hgr] at hk2
      exact absurd hk2 throwV_not_ok
    | ok rt2 =>
      simp only [hgr] at hk2
      cases hreg : OpRegistry_get_bin_operator lt2 rt2 op with
      | error e =>
        simp only [hreg] at hk2
        exact absurd hk2 throwV_not_ok
      | ok opf =>
        simp only [hreg] at hk2
        obtain ⟨s3, lv, hsl, hk3⟩ := bindV_ok hk2
        obtain ⟨s4, rv2, hsr, hk4⟩ := bindV_ok hk3
        obtain ⟨s5, lb, hbl, hk5⟩ := bindV_ok hk4
        obtain ⟨s6, rb2, hbr, hk6⟩ := bindV_ok hk5
        obtain ⟨s7, ret, hret, hk7⟩ := bindV_ok hk6
        obtain ⟨hs', hr⟩ := pureV_ok hk7
        obtain ⟨nl, hlres, _⟩ := ((get_type_spec env.kp).1 lres lt2).mp hgl
        obtain ⟨nr, hrres, _⟩ := ((get_type_spec env.kp).1 rres rt2).mp hgr
        subst hlres
        subst hrres
        have hs1 : s1 = s := by
          rcases ihV env ln _ _ _ hvl with h1 | ⟨_, hfn⟩
          · exact h1
          · exact hfn.elim
        subst hs1
        have hs2 : s2 = s1 := by
          rcases ihV env rn _ _ _ hvr with h1 | ⟨_, hfn⟩
          · exact h1
          · exact hfn.elim
        subst hs2
        have hs3 := symbols0_get_res_ok hsl
        subst hs3
        have hs4 := symbols0_get_res_ok hsr
        subst hs4
        have hs5 := buffer_table_get_res_ok hbl
        subst hs5
        have hs6 := buffer_table_get_res_ok hbr
        subst hs6
        obtain ⟨hs7, _⟩ := get_return_buffer_ok hret
        subst hs7
        subst hs'
        refine ⟨rfl, ?_⟩
        unfold OpRegistry_get_bin_operator at hreg
        split at hreg
        · injection hreg with hopf
          exact ⟨.opCall op lv rv2 lb rb2 ret lt2 rt2, by rw [hr, ← hopf]⟩
        · exact Except.noConfusion hreg

theorem loopP_succ (f : Nat) (ihV : VisitP f) (ihLoop : LoopP f) :
    LoopP (f + 1) := by
  intro env acc last s s' out h
  obtain ⟨s1, fr, hif, hk⟩ := bindV_ok h
  obtain ⟨hs1, c, frTail, hc, hcf⟩ := innermostFrame_ok hif
  rw [hs1] at hk
  cases hn : fr.nodes with
  | nil =>
    rw [hn] at hk
    obtain ⟨hs', hout⟩ := pureV_ok hk
    subst hout
    refine ⟨c, fr, frTail, hc, hcf, ?_, by simp [hn]⟩
    rw [hs']
    obtain ⟨frN, frS⟩ := fr
    simp only at hn
    subst hn
    obtain ⟨sctx, shv, sbt, srb⟩ := s
    simp only at hc
    subst hc
    obtain ⟨cfr, cfp, crt⟩ := c
    simp only at hcf
    subst hcf
    simp [drainedCtx]
  | cons nodeA rest =>
    rw [hn] at hk
    obtain ⟨s2, u, hset, hk2⟩ := bindV_ok hk
    have hs2 : s2 = withCtx s
        ⟨⟨rest, fr.symbols⟩ :: frTail, c.func_params, c.func_ret_type⟩ := by
      unfold setInnermostFrame at hset
      rw [bindV_step _ (getCtx_eval hc)] at hset
      simp only [hcf] at hset
      unfold setCtx at hset
      injection hset with h1 h2
      exact h1.symm
    subst hs2
    obtain ⟨s3, res, hvis, hk3⟩ := bindV_ok hk2
    have hV := ihV env nodeA _ _ _ hvis
    have hmain : ∀ acc2 : List Stmt,
        parse_body_loop env f acc2 (some nodeA) s3 = (s', .ok out) →
        s' = { s with context := some (drainedCtx c fr.symbols frTail) } ∧
        out.2 = (match (nodeA :: rest).getLast? with
          | none => last | some a => some a) := by
      intro acc2 hk4
      obtain ⟨c2, fr2, frTail2, hc2, hcf2, hseq, hout⟩ :=
        ihLoop env acc2 (some nodeA) _ s' out hk4
      have hs3 : s3 = withCtx s
          ⟨⟨rest, fr.symbols⟩ :: frTail, c.func_params, c.func_ret_type⟩ := by
        rcases hV with h1 | ⟨⟨_, cF, hcF, hcFfr⟩, _⟩
        · exact h1
        · rw [hcF] at hc2
          injection hc2 with hc2e
          rw [← hc2e] at hcf2
          rw [hcFfr] at hcf2
          exact absurd hcf2 (by simp)
      rw [hs3] at hc2
      simp only [withCtx] at hc2
      injection hc2 with hc2e
      have hcf2b : (⟨⟨rest, fr.symbols⟩ :: frTail, c.func_params,
          c.func_ret_type⟩ : ScopeContext).frames = fr2 :: frTail2 := by
        rw [hc2e]; exact hcf2
      simp only at hcf2b
      injection hcf2b with hfr2 hft2
      constructor
      · rw [hseq, hs3]
        rw [← hc2e, ← hfr2, ← hft2]
        simp [withCtx, drainedCtx]
      · rw [hout, ← hfr2]
        simp only
        rw [getLast?_cons_form]
        cases hrl : rest.getLast? with
        | none => simp [hrl]
        | some b => simp [hrl]
    cases res with
    | noneRes =>
      obtain ⟨hfin1, hfin2⟩ := hmain acc hk3
      exact ⟨c, fr, frTail, hc, hcf, hfin1, by rw [hfin2, hn]⟩
    | stmt st =>
      obtain ⟨hfin1, hfin2⟩ := hmain (acc ++ [st]) hk3
      exact ⟨c, fr, frTail, hc, hcf, hfin1, by rw [hfin2, hn]⟩
    | str s4 => exact absurd hk3 throwV_not_ok
    | expr e => exact absurd hk3 throwV_not_ok
    | func fn => exact absurd hk3 throwV_not_ok
    | keywordRes a2 v2 => exact absurd hk3 throwV_not_ok
    | pyList l => exact absurd hk3 throwV_not_ok

theorem set_return_buffer_eval (b : Buffer) (s : VState) :
    set_return_buffer b s = ({ s with return_buffer := some b }, .ok ()) := rfl

theorem push_handle_var_eval (v : PrimVar) (s : VState) :
    push_handle_var v s =
      ({ s with session_handle_var_ctx := s.session_handle_var_ctx ++ [v] },
        .ok ()) := rfl

theorem update_symbol_eval (name : String) (v : PrimVar) (s : VState)
    (c : ScopeContext) (fr : ScopeFrame) (frTail : List ScopeFrame)
    (hc : s.context = some c) (hcf : c.frames = fr :: frTail) :
    update_symbol name v s =
      (withCtx s ⟨⟨fr.nodes, dict_update fr.symbols name v⟩ :: frTail,
        c.func_params, c.func_ret_type⟩, .ok ()) := by
  unfold update_symbol
  rw [bindV_step _ (getCtx_eval hc)]
  simp only [hcf]
  rfl

theorem func_params_append_eval (v : PrimVar) (s : VState) (c : ScopeContext)
    (hc : s.context = some c) :
    func_params_append v s =
      (withCtx s ⟨c.frames, c.func_params ++ [v], c.func_ret_type⟩, .ok ()) := by
  unfold func_params_append
  rw [bindV_step _ (getCtx_eval hc)]
  rfl

theorem func_params_last_eval (s : VState) (c : ScopeContext) (v : PrimVar)
    (hc : s.context = some c) (hl : c.func_params.getLast? = some v) :
    func_params_last s = (s, .ok v) := by
  unfold func_params_last
  rw [bindV_step _ (getCtx_eval hc)]
  simp only [hl]
  rfl

theorem pop_handle_var_eval (s : VState) (v : PrimVar)
    (hl : s.session_handle_var_ctx.getLast? = some v) :
    pop_handle_var s =
      ({ s with session_handle_var_ctx := s.session_handle_var_ctx.dropLast },
        .ok ()) := by
  unfold pop_handle_var
  rw [hl]

theorem pop_scope_eval (s : VState) (c : ScopeContext) (fr : ScopeFrame)
    (frTail : List ScopeFrame)
    (hc : s.context = some c) (hcf : c.frames = fr :: frTail) :
    pop_scope s =
      (withCtx s ⟨frTail, c.func_params, c.func_ret_type⟩, .ok ()) := by
  unfold pop_scope
  rw [bindV_step _ (getCtx_eval hc)]
  simp only [hcf]
  rfl

theorem pbP_succ (f : Nat) (ihLoop : LoopP f)
    (ihRetPred : ∀ g, f = g + 1 → RetP g) : PBP (f + 1) := by
  intro env auto s s' body c fr frTail hc hcf h
  obtain ⟨s1, br, hloop, hk⟩ := bindV_ok h
  obtain ⟨cL, frL, frTailL, hcL, hcfL, hs1, hout⟩ :=
    ihLoop env [] none s s1 br hloop
  rw [hc] at hcL
  injection hcL with hcLe
  subst hcLe
  rw [hcf] at hcfL
  injection hcfL with hfrL hftL
  subst hfrL
  subst hftL
  split at hk
  · obtain ⟨s2, r2, hvis, hk2⟩ := bindV_ok hk
    cases f with
    | zero => exact absurd hvis throwV_not_ok
    | succ g =>
      obtain ⟨hst, hnone, _⟩ := ihRetPred g rfl env none s1 s2 r2 hvis
      obtain ⟨c2, hc2, hs2, hr2⟩ := hnone rfl
      rw [hr2] at hk2
      obtain ⟨hs', hbody⟩ := pureV_ok hk2
      rw [hs', hs2, hs1]
  · obtain ⟨hs', hbody⟩ := pureV_ok hk
    rw [hs', hs1]

theorem funDefP_succ (f : Nat) (ihPB : PBP f) : FunDefP (f + 1) := by
  intro env nodeBody s s' r h
  simp only [visit_FunctionDef] at h
  rw [bindV_step _ (rfl : setCtx ScopeContext.fresh s =
      ({ s with context := some ScopeContext.fresh }, .ok ()))] at h
  have hns : new_scope nodeBody ({ s with context := some ScopeContext.fresh }) =
      ({ s with context := some ⟨[⟨nodeBody, []⟩], [], none⟩ }, .ok ()) := by
    unfold new_scope
    rw [bindV_step _ (getCtx_eval rfl)]
    rfl
  rw [bindV_step _ hns] at h
  rw [bindV_step _ (addParams_run env.kp.args (build_span env)
      ({ s with context := some ⟨[⟨nodeBody, []⟩], [], none⟩ })
      ⟨[⟨nodeBody, []⟩], [], none⟩ ⟨nodeBody, []⟩ [] rfl rfl)] at h
  rw [bindV_step _ (set_return_buffer_eval (decl_buffer [10]) _)] at h
  rw [bindV_step _ (update_symbol_eval "handle_2_71828182846"
      ⟨"handle_2_71828182846", "handle", none⟩ _ _ _ _ rfl rfl)] at h
  rw [bindV_step _ (func_params_append_eval
      ⟨"handle_2_71828182846", "handle", none⟩ _ _ rfl)] at h
  rw [bindV_step _ (func_params_last_eval _ _ _ rfl (List.getLast?_concat _))] at h
  rw [bindV_step _ (push_handle_var_eval _ _)] at h
  obtain ⟨s8, bodyStmts, hpb, hk⟩ := bindV_ok h
  have hs8 := ihPB env true _ s8 bodyStmts _ _ _ rfl rfl hpb
  rw [hs8] at hk
  rw [bindV_step _ (getCtx_eval rfl)] at hk
  rw [bindV_step _ (pop_handle_var_eval _ _ (List.getLast?_concat _))] at hk
  rw [bindV_step _ (pop_scope_eval _ _ _ _ rfl rfl)] at hk
  obtain ⟨hs', hr⟩ := pureV_ok hk
  subst hr
  refine ⟨?_, ?_, ?_, ?_, bodyStmts, ?_⟩
  · rw [hs']
    simp [withCtx, withCtxBT, List.dropLast_concat]
  · rw [hs']
    simp [withCtx, withCtxBT, drainedCtx, paramVars, argVars, handleVar]
  · rw [hs']
    simp [withCtx, withCtxBT]
  · rw [hs']
    simp [withCtx, withCtxBT]
  · simp [paramVars, argVars, handleVar, drainedCtx, withCtx, withCtxBT,
      ndarrayType_to_ndarray]

theorem visitP_succ (f : Nat) (ihFD : FunDefP f) (ihRet : RetP f)
    (ihUn : UnP f) (ihBin : BinP f) (ihKw : KwP f) (ihAtt : AttP f)
    (ihAsg : AsgP f) : VisitP (f + 1) := by
  intro env n s s' r h
  cases n with
  | FunctionDef body =>
    obtain ⟨hhv, hctx, _, _, bs, hr⟩ := ihFD env body s s' r h
    right
    refine ⟨⟨hhv, ⟨[], paramVars env, none⟩, hctx, rfl⟩, ?_⟩
    rw [hr]
    trivial
  | Constant v =>
    cases v with
    | noneConst => exact Or.inl (pureV_ok h).1
    | num n2 => exact Or.inl (pureV_ok h).1
    | strLit s2 => exact absurd h throwV_not_ok
  | Name id =>
    have h2 : visit_Name env id s = (s', .ok r) := h
    unfold visit_Name at h2
    split at h2
    · exact Or.inl (pureV_ok h2).1
    · split at h2
      · exact Or.inl (pureV_ok h2).1
      · exact Or.inl (pureV_ok h2).1
  | UnaryOp op o => exact Or.inl (ihUn env op o s s' r h).1
  | BinOp op l rr => exact Or.inl (ihBin env op l rr s s' r h).1
  | BoolOp => exact absurd h throwV_not_ok
  | Compare => exact absurd h throwV_not_ok
  | Call => exact absurd h throwV_not_ok
  | keyword a v =>
    obtain ⟨hst, a2, v2, hr⟩ := ihKw env a v s s' r h
    rcases hst with h1 | h1
    · exact Or.inl h1
    · right
      refine ⟨h1, ?_⟩
      rw [hr]
      trivial
  | Attribute v a =>
    obtain ⟨hst, l, hr⟩ := ihAtt env v a s s' r h
    rcases hst with h1 | h1
    · exact Or.inl h1
    · right
      refine ⟨h1, ?_⟩
      rw [hr]
      trivial
  | Assign ts v => exact (ihAsg env ts v s s' r h).elim
  | AnnAssign => exact Or.inl (pureV_ok h).1
  | AugAssign => exact Or.inl (pureV_ok h).1
  | If b => exact Or.inl (pureV_ok h).1
  | For b => exact Or.inl (pureV_ok h).1
  | Return v =>
    obtain ⟨hst, hnone, hsome⟩ := ihRet env v s s' r h
    rcases hst with h1 | h1
    · exact Or.inl h1
    · right
      refine ⟨h1, ?_⟩
      cases v with
      | none =>
        obtain ⟨c, _, _, hr⟩ := hnone rfl
        rw [hr]
        trivial
      | some vn =>
        rw [hsome vn rfl]
        trivial
  | Tuple elts => exact absurd h throwV_not_ok
  | Subscript v => exact absurd h throwV_not_ok
  | While b => exact absurd h throwV_not_ok
  | Lambda => exact absurd h throwV_not_ok

/-- The visitor invariants hold at every fuel level: state preservation of
the expression visitors, the full effect of `visit_FunctionDef`, and the
worklist consumption of `parse_body`. -/
theorem masterP : ∀ fuel, MasterP fuel := by
  intro fuel
  induction fuel using Nat.strong_induction_on with
  | _ fuel ih =>
    cases fuel with
    | zero =>
      refine ⟨?_, ?_, ?_, ?_, ?_, ?_, ?_, ?_, ?_, ?_⟩
      · intro env n s s' r h
        exact absurd h throwV_not_ok
      · intro env nodeBody s s' r h
        exact absurd h throwV_not_ok
      · intro env v s s' r h
        exact absurd h throwV_not_ok
      · intro env op o s s' r h
        exact absurd h throwV_not_ok
      · intro env op ln rn s s' r h
        exact absurd h throwV_not_ok
      · intro env a v s s' r h
        exact absurd h throwV_not_ok
      · intro env v a s s' r h
        exact absurd h throwV_not_ok
      · intro env ts v s s' r h
        exact absurd h throwV_not_ok
      · intro env acc last s s' out h
        exact absurd h throwV_not_ok
      · intro env auto s s' body c fr frTail hc hcf h
        exact absurd h throwV_not_ok
    | succ f =>
      obtain ⟨ihV, ihFD, ihRet, ihUn, ihBin, ihKw, ihAtt, ihAsg, ihLoop, ihPB⟩ :=
        ih f (Nat.lt_succ_self f)
      refine ⟨visitP_succ f ihFD ihRet ihUn ihBin ihKw ihAtt ihAsg,
        funDefP_succ f ihPB,
        retP_succ f ihV,
        unP_succ f ihV,
        binP_succ f ihV,
        kwP_succ f ihV,
        attP_succ f ihV,
        asgP_succ f,
        loopP_succ f ihV ihLoop,
        pbP_succ f ihLoop ?_⟩
      intro g hg
      exact (ih g (by omega)).2.2.1

theorem dict_lookup_eq_none_of_not_mem {β : Type} (m : List (String × β))
    (k : String) (h : ¬ m.any (fun p => p.1 = k) = true) :
    dict_lookup m k = none := by
  induction m with
  | nil => rfl
  | cons p rest ih =>
    rw [dict_lookup]
    have hp : ¬ p.1 = k := by
      intro hpk
      exact h (List.any_eq_true.mpr ⟨p, List.mem_cons_self p rest, by simp [hpk]⟩)
    rw [if_neg hp]
    apply ih
    intro h2
    apply h
    rcases List.any_eq_true.mp h2 with ⟨q, hq, hqk⟩
    exact List.any_eq_true.mpr ⟨q, List.mem_cons_of_mem _ hq, hqk⟩

theorem dict_lookup_map_update {β : Type} (m : List (String × β)) (k : String)
    (v : β) :
    dict_lookup (m.map (fun p => if p.1 = k then (k, v) else p)) k =
      (if m.any (fun p => p.1 = k) then some v else none) := by
  induction m with
  | nil => rfl
  | cons p rest ih =>
    simp only [List.map_cons, List.any_cons]
    by_cases hp : p.1 = k
    · simp [dict_lookup, hp]
    · simp only [hp, if_false, decide_eq_true_eq, Bool.false_or]
      rw [dict_lookup]
      simp only [hp, if_false]
      rw [ih]
      simp only [decide_False, Bool.false_or]

theorem dict_lookup_append_single {β : Type} (m : List (String × β))
    (k : String) (v : β) (h : dict_lookup m k = none) :
    dict_lookup (m ++ [(k, v)]) k = some v := by
  induction m with
  | nil => simp [dict_lookup]
  | cons p rest ih =>
    rw [dict_lookup] at h
    rw [List.cons_append, dict_lookup]
    by_cases hp : p.1 = k
    · rw [if_pos hp] at h
      exact absurd h (by simp)
    · rw [if_neg hp] at h
      rw [if_neg hp]
      exact ih h

theorem dict_lookup_update_self {β : Type} (m : List (String × β)) (k : String)
    (v : β) : dict_lookup (dict_update m k v) k = some v := by
  unfold dict_update
  by_cases hany : m.any (fun p => p.1 = k) = true
  · rw [if_pos hany, dict_lookup_map_update, if_pos hany]
  · rw [if_neg hany]
    exact dict_lookup_append_single m k v (dict_lookup_eq_none_of_not_mem m k hany)

theorem dict_lookup_map_update_other {β : Type} (m : List (String × β))
    (k a : String) (v : β) (hne : ¬ a = k) :
    dict_lookup (m.map (fun p => if p.1 = k then (k, v) else p)) a =
      dict_lookup m a := by
  induction m with
  | nil => rfl
  | cons p rest ih =>
    simp only [List.map_cons]
    rw [dict_lookup, dict_lookup]
    by_cases hp : p.1 = k
    · rw [if_pos hp]
      have h1 : ¬ (k, v).1 = a := fun hka => hne hka.symm
      have h2 : ¬ p.1 = a := by
        rw [hp]
        exact fun hka => hne hka.symm
      rw [if_neg h1, if_neg h2]
      exact ih
    · rw [if_neg hp]
      by_cases hpa : p.1 = a
      · rw [if_pos hpa, if_pos hpa]
      · rw [if_neg hpa, if_neg hpa]
        exact ih

theorem dict_lookup_append_single_other {β : Type} (m : List (String × β))
    (k a : String) (v : β) (hne : ¬ a = k) :
    dict_lookup (m ++ [(k, v)]) a = dict_lookup m a := by
  induction m with
  | nil =>
    simp only [List.nil_append, dict_lookup]
    rw [if_neg (fun hka => hne hka.symm)]
  | cons p rest ih =>
    rw [List.cons_append, dict_lookup, dict_lookup]
    by_cases hpa : p.1 = a
    · rw [if_pos hpa, if_pos hpa]
    · rw [if_neg hpa, if_neg hpa]
      exact ih

theorem dict_lookup_update_other {β : Type} (m : List (String × β))
    (k a : String) (v : β) (hne : ¬ a = k) :
    dict_lookup (dict_update m k v) a = dict_lookup m a := by
  unfold dict_update
  by_cases hany : m.any (fun p => p.1 = k) = true
  · rw [if_pos hany]
    exact dict_lookup_map_update_other m k a v hne
  · rw [if_neg hany]
    exact dict_lookup_append_single_other m k a v hne

theorem bufferTableAfter_preserve (args : List (String × KernelType))
    (bt : List (String × Buffer)) (a : String)
    (h : ¬ a ∈ dict_keys args) :
    dict_lookup (bufferTableAfter args bt) a = dict_lookup bt a := by
  induction args generalizing bt with
  | nil => rfl
  | cons p rest ih =>
    have hne : ¬ a = p.1 := by
      intro hap
      exact h (by rw [hap]; exact List.mem_cons_self _ _)
    have hrest : ¬ a ∈ dict_keys rest := by
      intro h2
      exact h (List.mem_cons_of_mem _ h2)
    show dict_lookup (bufferTableAfter rest (dict_update bt p.1 (decl_buffer [10]))) a = _
    rw [ih _ hrest, dict_lookup_update_other bt p.1 a _ hne]

theorem bufferTableAfter_lookup (args : List (String × KernelType))
    (bt : List (String × Buffer)) (name : String)
    (h : name ∈ dict_keys args) :
    dict_lookup (bufferTableAfter args bt) name = some (decl_buffer [10]) := by
  induction args generalizing bt with
  | nil => simp [dict_keys] at h
  | cons p rest ih =>
    show dict_lookup (bufferTableAfter rest (dict_update bt p.1 (decl_buffer [10]))) name = _
    by_cases hr : name ∈ dict_keys rest
    · exact ih _ hr
    · have hp : name = p.1 := by
        rcases List.mem_cons.mp h with h1 | h1
        · exact h1
        · exact absurd h1 hr
      rw [bufferTableAfter_preserve rest _ name hr]
      rw [hp]
      exact dict_lookup_update_self bt p.1 _

/- ### C3 — the lowered function's parameter list -/

/-- C3: whenever lowering a function definition succeeds, the produced IR
function's parameters are exactly the user-declared parameters, in
declaration order and typed from their annotations, followed by one
trailing handle-typed parameter with the fixed synthetic name
`handle_2_71828182846`; in particular a kernel with `n` declared
parameters yields `n + 1` IR parameters. -/
theorem function_params_layout (env : KernelEnv) (fuel : Nat)
    (body : List AstNode) (s s' : VState) (fn : IRFunction)
    (h : visit env fuel (.FunctionDef body) s = (s', .ok (.func fn))) :
    fn.params =
      env.kp.args.map (fun p => ⟨p.1, p.2.dtype, some (build_span env)⟩) ++
        [⟨"handle_2_71828182846", "handle", none⟩] ∧
    fn.params.length = env.kp.args.length + 1 := by
  cases fuel with
  | zero => exact absurd h throwV_not_ok
  | succ f =>
    obtain ⟨_, _, _, _, bs, hr⟩ := (masterP f).2.1 env body s s' _ h
    injection hr with hfn
    subst hfn
    constructor
    · simp [paramVars, argVars, handleVar]
    · simp [paramVars, argVars, handleVar]

/-- The spec's scenario kernel: two parameters, body `return a`. -/
def demoBodyA : List AstNode := [.Return (some (.Name "a"))]

def demoRun : VState × Except Err VisitRes :=
  visit demoEnv 20 (.FunctionDef demoBodyA) initVState

def demoFunc : IRFunction :=
  match demoRun with
  | (_, .ok (.func fn)) => fn
  | _ => ⟨[], [], .SeqStmt [] demoSpan, "", demoSpan⟩

set_option maxHeartbeats 4000000 in
/-- Witness for C3: the demo kernel with two declared parameters lowers to
an IR function with exactly 3 parameters. -/
theorem function_params_layout_witness :
    demoRun.2 = .ok (.func demoFunc) ∧ demoFunc.params.length = 3 := by
  have h : visit demoEnv 20 (.FunctionDef demoBodyA) initVState =
      (demoRun.1, .ok (.func demoFunc)) := rfl
  refine ⟨rfl, ?_⟩
  have hlay := function_params_layout demoEnv 20 demoBodyA initVState
    demoRun.1 demoFunc h
  rw [hlay.2]
  rfl

/- ### C5 — scope and handle-variable stack discipline -/

set_option maxHeartbeats 4000000 in
/-- C5 counterexample: lowering a function whose body contains an
unsupported statement raises, and the failed visitor is left with the
pushed handle variable still on `session_handle_var_ctx` and the scope
frame still in place — the stacks are NOT restored to their pre-entry
(empty) state along the error path. -/
theorem scope_discipline_error_path_cex :
    isNotImplementedRes
      (visit demoEnv 20 (.FunctionDef [.While []]) initVState).2 = true ∧
    (visit demoEnv 20 (.FunctionDef [.While []]) initVState).1.session_handle_var_ctx
      = [⟨"handle_2_71828182846", "handle", none⟩] ∧
    (visit demoEnv 20 (.FunctionDef [.While []]) initVState).1.session_handle_var_ctx
      ≠ initVState.session_handle_var_ctx ∧
    ctxHasFrame (visit demoEnv 20 (.FunctionDef [.While []]) initVState).1 = true := by
  exact ⟨rfl, rfl, by decide, rfl⟩

/-- C5 (amended): on the success path the bracket discipline holds — a
function-definition lowering that returns normally restores the
handle-variable stack to its pre-entry value and leaves a context with no
scope frames; on an error-raising exit no pop occurs, and the pushed
handle variable and scope frame remain in the failed visitor's state. -/
theorem scope_discipline_success (env : KernelEnv) (fuel : Nat)
    (body : List AstNode) (s s' : VState) (r : VisitRes)
    (h : visit env fuel (.FunctionDef body) s = (s', .ok r)) :
    s'.session_handle_var_ctx = s.session_handle_var_ctx ∧
    ∃ c', s'.context = some c' ∧ c'.frames = [] := by
  cases fuel with
  | zero => exact absurd h throwV_not_ok
  | succ f =>
    obtain ⟨hhv, hctx, _⟩ := (masterP f).2.1 env body s s' r h
    exact ⟨hhv, ⟨[], paramVars env, none⟩, hctx, rfl⟩

set_option maxHeartbeats 4000000 in
/-- Witness for C5's amended success half, at the demo kernel. -/
theorem scope_discipline_success_witness :
    demoRun.2 = .ok (.func demoFunc) ∧
    demoRun.1.session_handle_var_ctx = initVState.session_handle_var_ctx := by
  have h : visit demoEnv 20 (.FunctionDef demoBodyA) initVState =
      (demoRun.1, .ok (.func demoFunc)) := rfl
  exact ⟨rfl,
    (scope_discipline_success demoEnv 20 demoBodyA initVState demoRun.1 _ h).1⟩

/- ### C7 — the value of a valued return is discarded -/

set_option maxHeartbeats 4000000 in
/-- C7 counterexample: in the demo kernel ending in `return a` (with `a` a
declared array parameter), the lowered body's final statement is a
`ReturnStmt` carrying NO value — it does not carry `a`'s bound
variable. -/
theorem return_value_discarded_cex :
    demoRun.2 = .ok (.func demoFunc) ∧
    (match finalStmt demoFunc.body with
      | some st => stmtIsValuelessReturn st
      | none => false) = true ∧
    (match finalStmt demoFunc.body with
      | some st => stmtCarriesValue st
      | none => true) = false := ⟨rfl, rfl, rfl⟩

/-- C7 (amended): lowering any valued return produces a `ReturnStmt`
whose value slot is empty (the lowered value is discarded; the source
marks return-value conversion as a todo), carrying the return node's
span. -/
theorem valued_return_emits_empty_return (env : KernelEnv) (fuel : Nat)
    (vn : AstNode) (s s' : VState) (r : VisitRes)
    (h : visit env fuel (.Return (some vn)) s = (s', .ok r)) :
    r = .stmt (.ReturnStmt none (some (build_span env))) := by
  cases fuel with
  | zero => exact absurd h throwV_not_ok
  | succ f =>
    obtain ⟨_, _, hsome⟩ := (masterP f).2.2.1 env (some vn) s s' r h
    exact hsome vn rfl

/-- Witness for C7's amended claim at the concrete `return a`. -/
theorem valued_return_emits_empty_return_witness :
    (visit demoEnv 5 (.Return (some (.Name "a"))) initVState).2 =
      .ok (.stmt (.ReturnStmt none (some (build_span demoEnv)))) := by
  have h : visit demoEnv 5 (.Return (some (.Name "a"))) initVState =
      (initVState, .ok (.stmt (.ReturnStmt none (some (build_span demoEnv))))) := rfl
  have happ := valued_return_emits_empty_return demoEnv 5 (.Name "a")
    initVState initVState _ h
  rw [h]

/- ### C8 — auto-synthesized bare return -/

/-- C8: when lowering of a function body's statement list succeeds with
`auto_add_return` and the worklist was empty or its last statement is not
a `Return`, the resulting statement sequence ends with the lowering of a
bare return: a `ReturnStmt` carrying a none expression adapted to the
declared return type. -/
theorem parse_body_auto_return (env : KernelEnv) (fuel : Nat)
    (s s' : VState) (body : List Stmt) (c : ScopeContext) (fr : ScopeFrame)
    (frTail : List ScopeFrame)
    (hc : s.context = some c) (hcf : c.frames = fr :: frTail)
    (hnr : fr.nodes = [] ∨ isReturnOpt fr.nodes.getLast? = false)
    (h : parse_body env fuel true s = (s', .ok body)) :
    body ≠ [] ∧
    body.getLast? = some (.ReturnStmt
      (some (smart_adapt_to .noneExpr c.func_ret_type)) none) := by
  cases fuel with
  | zero => exact absurd h throwV_not_ok
  | succ f =>
    obtain ⟨s1, br, hloop, hk⟩ := bindV_ok h
    obtain ⟨cL, frL, frTailL, hcL, hcfL, hs1, hout⟩ :=
      (masterP f).2.2.2.2.2.2.2.2.1 env [] none s s1 br hloop
    rw [hc] at hcL
    injection hcL with he
    subst he
    rw [hcf] at hcfL
    injection hcfL with he1 he2
    subst he1
    subst he2
    have hcond : (true && (br.1.isEmpty || !(isReturnOpt br.2))) = true := by
      rcases hnr with hn | hn
      · rw [hout, hn]
        simp [isReturnOpt]
      · rw [hout]
        cases hl : fr.nodes.getLast? with
        | none => simp [isReturnOpt]
        | some a =>
          rw [hl] at hn
          simp [hn]
    split at hk
    · obtain ⟨s2, r2, hvis, hk2⟩ := bindV_ok hk
      cases f with
      | zero => exact absurd hvis throwV_not_ok
      | succ g =>
        obtain ⟨_, hnone, _⟩ := (masterP g).2.2.1 env none s1 s2 r2 hvis
        obtain ⟨c2, hc2, hs2eq, hr2⟩ := hnone rfl
        rw [hs1] at hc2
        have hc2b : some (drainedCtx c fr.symbols frTail) = some c2 := hc2
        injection hc2b with hc2e
        rw [hr2] at hk2
        obtain ⟨hs'2, hbody⟩ := pureV_ok hk2
        subst hbody
        constructor
        · simp
        · rw [List.getLast?_concat, ← hc2e]
          simp [drainedCtx]
    · exact absurd hcond (by assumption)

/-- A state holding one scope frame with an empty worklist (as at the
start of lowering an empty function body). -/
def c8State : VState := ⟨some ⟨[⟨[], []⟩], [], none⟩, [], [], none⟩

/-- Witness for C8: parsing an empty body with `auto_add_return` yields
exactly one statement, the synthesized bare return, as the final
statement. -/
theorem parse_body_auto_return_witness :
    (parse_body demoEnv 10 true c8State).2 =
      .ok [Stmt.ReturnStmt (some (smart_adapt_to .noneExpr none)) none] ∧
    [Stmt.ReturnStmt (some (smart_adapt_to .noneExpr none)) none].getLast? =
      some (Stmt.ReturnStmt (some (smart_adapt_to .noneExpr none)) none) := by
  have h : parse_body demoEnv 10 true c8State =
      (c8State, .ok [Stmt.ReturnStmt (some (smart_adapt_to .noneExpr none)) none]) := rfl
  have happ := parse_body_auto_return demoEnv 10 c8State c8State
    [Stmt.ReturnStmt (some (smart_adapt_to .noneExpr none)) none]
    ⟨[⟨[], []⟩], [], none⟩ ⟨[], []⟩ [] rfl rfl (Or.inl rfl) h
  exact ⟨by rw [h], happ.2⟩

/- ### C10 — hardcoded (10,) buffers -/

/-- C10: on a successful function-definition lowering, the buffer table
maps names by updating the incoming table with one entry per declared
parameter, each created by `decl_buffer((10,))` — the same hardcoded
one-dimensional shape regardless of the parameter's annotation — and the
synthetic return buffer is also `decl_buffer((10,))`; looking up any
declared parameter's buffer yields shape `[10]`. -/
theorem buffers_hardcoded_shape (env : KernelEnv) (fuel : Nat)
    (body : List AstNode) (s s' : VState) (r : VisitRes)
    (h : visit env fuel (.FunctionDef body) s = (s', .ok r)) :
    s'.buffer_table = bufferTableAfter env.kp.args s.buffer_table ∧
    s'.return_buffer = some (decl_buffer [10]) ∧
    ∀ name, name ∈ dict_keys env.kp.args →
      dict_lookup s'.buffer_table name = some (decl_buffer [10]) := by
  cases fuel with
  | zero => exact absurd h throwV_not_ok
  | succ f =>
    obtain ⟨_, _, hbt, hrb, _⟩ := (masterP f).2.1 env body s s' r h
    refine ⟨hbt, hrb, ?_⟩
    intro name hn
    rw [hbt]
    exact bufferTableAfter_lookup env.kp.args s.buffer_table name hn

set_option maxHeartbeats 4000000 in
/-- Witness for C10: in the demo kernel both parameters' buffers and the
return buffer have shape `[10]`, although the annotations declare the
symbolic shape `[M, N]`. -/
theorem buffers_hardcoded_shape_witness :
    demoRun.2 = .ok (.func demoFunc) ∧
    dict_lookup demoRun.1.buffer_table "a" = some (decl_buffer [10]) ∧
    dict_lookup demoRun.1.buffer_table "b" = some (decl_buffer [10]) ∧
    demoRun.1.return_buffer = some (decl_buffer [10]) := by
  have h : visit demoEnv 20 (.FunctionDef demoBodyA) initVState =
      (demoRun.1, .ok (.func demoFunc)) := rfl
  have happ := buffers_hardcoded_shape demoEnv 20 demoBodyA initVState
    demoRun.1 _ h
  refine ⟨rfl, ?_, ?_, happ.2.1⟩
  · exact happ.2.2 "a" (by decide)
  · exact happ.2.2 "b" (by decide)
